import Mathlib

/-!
Shallow embedding of `script/struct_gen.py` (the dump.cs → il2cpp.h structure
generator) of this repository, and verification of its specification claims.

Conventions of the embedding:
* Python strings are modelled as `String`/`List Char`; the text transformations
  are transcribed operation by operation from the source.
* Python's regex classes `\s`, `\w` and the identifier class `[0-9A-Za-z_]`
  are modelled by their ASCII character sets, which is what the dump format
  uses.
* Python object identity of `TypeInfo` records (needed by the alias map's
  ambiguity test `existing is info`) is modelled by the index of the record in
  the arena `type_infos`, the list of discovered types in discovery order.
  The alias map therefore stores indices; `resolveTypeInfo` dereferences.
* Mutation is modelled by explicit state passing; the uncaught `IndexError`
  reachable in `parse_dump` and the `ValueError`/`SystemExit` of
  `generate_header`/`main` are modelled with `Except`; the unbounded recursion
  of `emit` is modelled with explicit fuel (`none` for every fuel =
  the recursion never finishes = divergence).
* Python `while` loops over text are transcribed as structural recursions
  driven by a fuel argument that callers instantiate with the text length;
  each loop iteration consumes at least one character, so this fuel is
  always sufficient.
-/

namespace StructGen

/-- ASCII whitespace: the characters of Python's `str.strip()` / regex `\s`
on the ASCII text of a dump. -/
def isSpaceChar (c : Char) : Bool :=
  c == ' ' || c == '\t' || c == '\n' || c == '\r' || c == '\x0b' || c == '\x0c'

/-- The class `[0-9A-Za-z_]`: regex `\w` and the complement of
`IDENTIFIER_SANITIZE_RE` in `struct_gen.py`. -/
def isWordChar (c : Char) : Bool := c.isAlphanum || c == '_'

/-- The backtick character (written via its code point). -/
def backtickChar : Char := Char.ofNat 96

/-- The opening brace character (written via its code point). -/
def openBraceChar : Char := Char.ofNat 123

/-- The closing brace character (written via its code point). -/
def closeBraceChar : Char := Char.ofNat 125

/-- Python `str.lstrip()` on a character list. -/
def lstripChars (l : List Char) : List Char := l.dropWhile isSpaceChar

/-- Python `str.rstrip()` on a character list. -/
def rstripChars (l : List Char) : List Char :=
  (l.reverse.dropWhile isSpaceChar).reverse

/-- Python `str.strip()` on a character list. -/
def trimChars (l : List Char) : List Char := rstripChars (lstripChars l)

/-- Python `s.rstrip(";")` on a character list. -/
def rstripSemis (l : List Char) : List Char :=
  (l.reverse.dropWhile (fun c => c == ';')).reverse

/-- Python `s.replace(a, b)` for single characters `a`, `b`. -/
def replaceChar (a b : Char) (l : List Char) : List Char :=
  l.map (fun c => if c = a then b else c)

/-- Python `s.replace(a, "")` for a single character `a`. -/
def deleteChar (a : Char) (l : List Char) : List Char :=
  l.filter (fun c => c != a)

/-- Python `s.replace("::", ".")`: leftmost, non-overlapping. -/
def replaceDoubleColon : List Char → List Char
  | [] => []
  | [c] => [c]
  | c :: d :: rest =>
    if c = ':' ∧ d = ':' then '.' :: replaceDoubleColon rest
    else c :: replaceDoubleColon (d :: rest)

/-- Python `s.replace(" `", "`")`: leftmost, non-overlapping. -/
def replaceSpaceBacktick : List Char → List Char
  | [] => []
  | [c] => [c]
  | c :: d :: rest =>
    if c = ' ' ∧ d = backtickChar then backtickChar :: replaceSpaceBacktick rest
    else c :: replaceSpaceBacktick (d :: rest)

/-- Worker for `collapseUnderscores`; the flag records whether the previously
emitted character was an underscore. -/
def collapseAux (b : Bool) : List Char → List Char
  | [] => []
  | c :: rest =>
    if c = '_' then
      if b then collapseAux true rest
      else '_' :: collapseAux true rest
    else c :: collapseAux false rest

/-- Python `re.sub(r"__+", "_", s)`: every maximal run of underscores becomes
a single underscore. -/
def collapseUnderscores (l : List Char) : List Char := collapseAux false l

/-- No two adjacent underscores (the normal form that `collapseUnderscores`
establishes). -/
def NoAdjU (l : List Char) : Prop :=
  l.Chain' (fun a b => ¬(a = '_' ∧ b = '_'))

/-- The final step of `sanitize_struct_name`: drop one leading underscore. -/
def stripLeadingUnderscore : List Char → List Char
  | [] => []
  | c :: rest => if c = '_' then rest else c :: rest

/-- The verbatim-identifier step of `sanitize_identifier`: drop one
leading `@`. -/
def dropVerbatimAt : List Char → List Char
  | [] => []
  | c :: rest => if c = '@' then rest else c :: rest

/-- The digit-prefix step of `sanitize_identifier`: prefix `_` when the first
character is a digit. -/
def prefixDigitUnderscore : List Char → List Char
  | [] => []
  | c :: rest => if c.isDigit then '_' :: c :: rest else c :: rest

/-- `sanitize_struct_name` of `struct_gen.py`, character level: the chain of
`str.replace` calls, the `__+` collapse, and the leading-underscore strip. -/
def sanitizeStructChars (l : List Char) : List Char :=
  stripLeadingUnderscore (collapseUnderscores
    (replaceChar '.' '_'
      (replaceChar ':' '_'
        (replaceChar '-' '_'
          (deleteChar ']'
            (replaceChar '[' '_'
              (replaceChar ' ' '_'
                (replaceChar ',' '_'
                  (deleteChar '>'
                    (replaceChar '<' '_'
                      (replaceChar backtickChar '_'
                        (replaceSpaceBacktick
                          (replaceChar '/' '.'
                            (replaceChar '+' '.'
                              (replaceDoubleColon l)))))))))))))))

/-- `sanitize_struct_name` of `struct_gen.py`. -/
def sanitize_struct_name (name : String) : String := ⟨sanitizeStructChars name.data⟩

/-- `sanitize_identifier` of `struct_gen.py`, character level: strip, drop a
verbatim-identifier `@`, fold `<`/`>`, replace every non-`[0-9A-Za-z_]`
character with `_`, collapse `__+`, prefix `_` before a leading digit, and
fall back to `"field"` when nothing remains. -/
def sanitizeIdentChars (l : List Char) : List Char :=
  let candidate := replaceChar '>' '_' (replaceChar '<' '_' (dropVerbatimAt (trimChars l)))
  let sanitized := prefixDigitUnderscore (collapseUnderscores
    (candidate.map (fun c => if isWordChar c then c else '_')))
  if sanitized = [] then "field".data else sanitized

/-- `sanitize_identifier` of `struct_gen.py`. -/
def sanitize_identifier (name : String) : String := ⟨sanitizeIdentChars name.data⟩

/-- Number of occurrences of a character: Python `line.count(ch)`. -/
def countChar (a : Char) (l : List Char) : Nat :=
  (l.filter (fun c => c == a)).length

/-- Python substring test `needle in hay`. -/
def hasSubstr (needle : List Char) : List Char → Bool
  | [] => needle.isPrefixOf []
  | c :: rest => needle.isPrefixOf (c :: rest) || hasSubstr needle rest

/-- Python `name.split('.')[-1]`: the segment after the last dot. -/
def afterLastDot (l : List Char) : List Char :=
  (l.reverse.takeWhile (fun c => c != '.')).reverse

/-- The prefix of `l` before the first occurrence of character `a`
(Python `s.split(a, 1)[0]`). -/
def takeUntilChar (a : Char) : List Char → List Char
  | [] => []
  | c :: rest => if c = a then [] else c :: takeUntilChar a rest

/-- The prefix before the first `"//"` (Python `s.split("//", 1)[0]`); the
whole list when there is none. -/
def cutLineComment : List Char → List Char
  | [] => []
  | [c] => [c]
  | c :: d :: rest =>
    if c = '/' ∧ d = '/' then []
    else c :: cutLineComment (d :: rest)

/-- The `MODIFIERS` set of `struct_gen.py` (membership is all that is used). -/
def MODIFIERS : List String :=
  ["public", "private", "protected", "internal", "static", "readonly",
   "volatile", "unsafe", "const", "new", "sealed", "abstract", "extern",
   "partial", "fixed"]

/-- Python `s.split(None, 1)`: `none` when the string is empty or whitespace;
otherwise the first whitespace-delimited word and the remainder with its
leading whitespace removed (possibly empty). -/
def splitNoneOnce (l : List Char) : Option (List Char × List Char) :=
  let t := l.dropWhile isSpaceChar
  match t with
  | [] => none
  | _ =>
    let w := t.takeWhile (fun c => !(isSpaceChar c))
    let rest := (t.drop w.length).dropWhile isSpaceChar
    some (w, rest)

/-- The loop of `strip_modifiers`; fuel-driven, each iteration removes at
least one character. -/
def stripModifiersLoop : Nat → List Char → List Char
  | 0, l => l
  | fuel+1, l =>
    match splitNoneOnce l with
    | none => l
    | some (w, rest) =>
      if MODIFIERS.contains (⟨w⟩ : String) then
        if rest = [] then [] else stripModifiersLoop fuel rest
      else l

/-- `strip_modifiers` of `struct_gen.py`. -/
def strip_modifiers (declaration : String) : String :=
  ⟨stripModifiersLoop declaration.data.length (trimChars declaration.data)⟩

/-- The bracket-aware scan of `split_type_and_name`: the index of the first
whitespace character at depth 0, where `<`/`[` increase and `>`/`]` decrease
the depth (never below 0, matching `max(depth - 1, 0)`). -/
def findSplitIndex : Nat → Nat → List Char → Option Nat
  | _, _, [] => none
  | depth, idx, c :: rest =>
    if c = '<' ∨ c = '[' then findSplitIndex (depth + 1) (idx + 1) rest
    else if c = '>' ∨ c = ']' then findSplitIndex (depth - 1) (idx + 1) rest
    else if isSpaceChar c ∧ depth = 0 then some idx
    else findSplitIndex depth (idx + 1) rest

/-- `split_type_and_name` of `struct_gen.py`; `none` models the raised
`ValueError`. -/
def split_type_and_name (declaration : String) : Option (String × String) :=
  let d0 := trimChars declaration.data
  let d1 := rstripSemis d0
  let d2 := if hasSubstr ['/', '/'] d1 then rstripChars (cutLineComment d1) else d1
  let d3 := (strip_modifiers ⟨d2⟩).data
  if d3 = [] then none
  else
    match findSplitIndex 0 0 d3 with
    | none => none
    | some typeEnd =>
      let typePart := d3.take typeEnd
      let rest := trimChars (d3.drop typeEnd)
      let namePart := trimChars (takeUntilChar '=' rest)
      some (⟨typePart⟩, ⟨namePart⟩)

/-- `normalise_type_name` of `struct_gen.py`. -/
def normalise_type_name (name : String) : String :=
  let t := trimChars name.data
  let t2 := if ("global::".data).isPrefixOf t then t.drop 8 else t
  ⟨replaceChar '+' '.' (replaceDoubleColon t2)⟩

/-- Association-list lookup modelling Python `dict.get` (keys are unique by
construction). -/
def dget {α : Type} : List (String × α) → String → Option α
  | [], _ => none
  | (k, v) :: rest, key => if k = key then some v else dget rest key

/-- In-place value update modelling Python `dict[key] = value` on a present
key (position preserved). -/
def dset {α : Type} : List (String × α) → String → α → List (String × α)
  | [], _, _ => []
  | (k, v) :: rest, key, value =>
    if k = key then (k, value) :: rest else (k, v) :: dset rest key value

/-- `PRIMITIVE_MAP` of `struct_gen.py`, in source order. -/
def PRIMITIVE_MAP : List (String × String) :=
  [("bool", "bool"), ("Boolean", "bool"), ("System.Boolean", "bool"),
   ("byte", "uint8_t"), ("Byte", "uint8_t"), ("System.Byte", "uint8_t"),
   ("sbyte", "int8_t"), ("SByte", "int8_t"), ("System.SByte", "int8_t"),
   ("short", "int16_t"), ("Int16", "int16_t"), ("System.Int16", "int16_t"),
   ("ushort", "uint16_t"), ("UInt16", "uint16_t"), ("System.UInt16", "uint16_t"),
   ("char", "uint16_t"), ("Char", "uint16_t"), ("System.Char", "uint16_t"),
   ("int", "int32_t"), ("Int32", "int32_t"), ("System.Int32", "int32_t"),
   ("uint", "uint32_t"), ("UInt32", "uint32_t"), ("System.UInt32", "uint32_t"),
   ("long", "int64_t"), ("Int64", "int64_t"), ("System.Int64", "int64_t"),
   ("ulong", "uint64_t"), ("UInt64", "uint64_t"), ("System.UInt64", "uint64_t"),
   ("float", "float"), ("Single", "float"), ("System.Single", "float"),
   ("double", "double"), ("Double", "double"), ("System.Double", "double"),
   ("string", "System_String_o*"), ("String", "System_String_o*"),
   ("System.String", "System_String_o*"),
   ("void", "void"),
   ("IntPtr", "intptr_t"), ("System.IntPtr", "intptr_t"),
   ("UIntPtr", "uintptr_t"), ("System.UIntPtr", "uintptr_t"),
   ("object", "Il2CppObject*"), ("Object", "Il2CppObject*"),
   ("System.Object", "Il2CppObject*")]

/-- `IGNORED_BASES` of `struct_gen.py`. -/
def IGNORED_BASES : List String :=
  ["object", "System.Object", "Il2CppSystem.Object", "ValueType", "System.ValueType"]

/-- A field record (`Field` dataclass); `c_type`/`referenced` are computed
functionally by `convert_type` instead of being stored. -/
structure Field where
  name : String
  original_type : String
  is_static : Bool
deriving DecidableEq, Repr

/-- A discovered type (`TypeInfo` dataclass). -/
structure TypeInfo where
  full_name : String
  short_name : String
  struct_name : String
  kind : String
  parent : Option String
  enum_base : Option String
  fields : List Field
  static_fields : List Field
deriving DecidableEq, Repr

/-- `TypeInfo.is_value_type` of `struct_gen.py`. -/
def TypeInfo.is_value_type (t : TypeInfo) : Bool :=
  t.kind == "struct" || t.kind == "enum"

/-- `TypeInfo.is_enum` of `struct_gen.py`. -/
def TypeInfo.is_enum (t : TypeInfo) : Bool := t.kind == "enum"

/-- A scanner context frame (`Context` dataclass); `type_info` holds the
arena index of the associated type. -/
structure Context where
  kind : String
  name : String
  pop_depth : Int
  type_info : Option Nat
  entered : Bool
deriving DecidableEq, Repr

/-- The alias map (`AliasMap` class): name → `some idx` (bound to the type at
arena index `idx`) or `none` (the ambiguous sentinel, Python `None`). An
absent key is unbound. -/
abbrev AliasMap := List (String × Option Nat)

/-- `AliasMap.add`: register an alias; a second distinct type on a bound key
demotes it to the ambiguous sentinel. -/
def aliasAdd (m : AliasMap) (alias0 : String) (idx : Nat) : AliasMap :=
  let a := normalise_type_name alias0
  match dget m a with
  | none => m ++ [(a, some idx)]
  | some existing =>
    if existing = some idx then m
    else
      match existing with
      | none => m
      | some _ => dset m a none

/-- `AliasMap.resolve`: exact (normalised) name first, then the short name;
ambiguous bindings are treated as not found. -/
def aliasResolve (m : AliasMap) (name : String) : Option Nat :=
  let n := normalise_type_name name
  match dget m n with
  | some (some idx) => some idx
  | _ =>
    match dget m ⟨afterLastDot n.data⟩ with
    | some (some idx) => some idx
    | _ => none

/-- Resolve to the `TypeInfo` record itself (Python's resolve returns the
object; the arena model dereferences the index). -/
def resolveTypeInfo (m : AliasMap) (types : List TypeInfo) (name : String) :
    Option TypeInfo :=
  (aliasResolve m name).bind (fun i => types[i]?)

/-- `FIELD_OFFSET_RE` matching at the head of the list:
`\[\s*FieldOffset\s*\(`. -/
def matchFieldOffsetAt (l : List Char) : Bool :=
  match l with
  | '[' :: rest =>
    let r1 := rest.dropWhile isSpaceChar
    if ("FieldOffset".data).isPrefixOf r1 then
      match (r1.drop 11).dropWhile isSpaceChar with
      | '(' :: _ => true
      | _ => false
    else false
  | _ => false

/-- `FIELD_OFFSET_RE.search`: match at any position. -/
def searchFieldOffset : List Char → Bool
  | [] => false
  | c :: rest => matchFieldOffsetAt (c :: rest) || searchFieldOffset rest

/-- `NAMESPACE_RE.match` on a stripped line:
`^namespace\s+([\w\.]+)\s*(?:\{)?\s*$`; returns the captured name. -/
def matchNamespace (l : List Char) : Option String :=
  if ("namespace".data).isPrefixOf l then
    let r0 := l.drop 9
    match r0 with
    | c :: _ =>
      if isSpaceChar c then
        let r1 := r0.dropWhile isSpaceChar
        let nm := r1.takeWhile (fun c => isWordChar c || c == '.')
        if nm = [] then none
        else
          let r2 := (r1.drop nm.length).dropWhile isSpaceChar
          match r2 with
          | [] => some ⟨nm⟩
          | b :: r3 => if b = openBraceChar ∧ r3.all isSpaceChar then some ⟨nm⟩ else none
      else none
    | [] => none
  else none

/-- The attribute prefix `(?:\[[^\]]+\]\s*)*` of `TYPE_RE`: consume leading
well-formed `[...]` blocks and their trailing whitespace; fuel-driven. -/
def skipAttrPrefix : Nat → List Char → List Char
  | 0, l => l
  | fuel+1, l =>
    match l with
    | '[' :: rest =>
      let body := rest.takeWhile (fun c => c != ']')
      if body = [] then l
      else
        match rest.drop body.length with
        | ']' :: r2 => skipAttrPrefix fuel (r2.dropWhile isSpaceChar)
        | _ => l
    | _ => l

/-- Candidate resume points of the greedy `(?:[\w]+\s+)*` modifier group of
`TYPE_RE`: the positions after 0, 1, 2, … word-plus-whitespace pairs, in that
order. -/
def modsPositionsAux : Nat → List Char → List (List Char)
  | 0, l => [l]
  | fuel+1, l =>
    let w := l.takeWhile isWordChar
    if w = [] then [l]
    else
      let r := l.drop w.length
      let sp := r.takeWhile isSpaceChar
      if sp = [] then [l]
      else l :: modsPositionsAux fuel (r.drop sp.length)

/-- The three type keywords of `TYPE_RE`. -/
def KEYWORDS : List String := ["class", "struct", "enum"]

/-- The tail of `TYPE_RE` from the `class|struct|enum` keyword on:
`(class|struct|enum)\s+([\w`]+(?:<[^>]+>)?)(?:\s*:\s*([^\{]+))?\s*(?:\{)?\s*$`;
returns kind, name (with any generic bracket part) and the raw bases capture. -/
def parseTypeAt (l : List Char) : Option (String × String × Option String) :=
  let w := l.takeWhile isWordChar
  let kind : String := ⟨w⟩
  if KEYWORDS.contains kind then
    let r1 := l.drop w.length
    let sp := r1.takeWhile isSpaceChar
    if sp = [] then none
    else
      let r2 := r1.drop sp.length
      let nm := r2.takeWhile (fun c => isWordChar c || c == backtickChar)
      if nm = [] then none
      else
        let r3 := r2.drop nm.length
        let angle : List Char × List Char :=
          match r3 with
          | '<' :: rr =>
            let body := rr.takeWhile (fun c => c != '>')
            if body = [] then (nm, r3)
            else
              match rr.drop body.length with
              | '>' :: r5 => (nm ++ '<' :: (body ++ ['>']), r5)
              | _ => (nm, r3)
          | _ => (nm, r3)
        let nameChars := angle.1
        let r6 := angle.2.dropWhile isSpaceChar
        match r6 with
        | [] => some (kind, ⟨nameChars⟩, none)
        | ':' :: r7 =>
          let r8 := r7.dropWhile isSpaceChar
          let basesChars := r8.takeWhile (fun c => c != openBraceChar)
          if basesChars = [] then none
          else
            match r8.drop basesChars.length with
            | [] => some (kind, ⟨nameChars⟩, some ⟨basesChars⟩)
            | b :: r9 =>
              if b = openBraceChar ∧ r9.all isSpaceChar then
                some (kind, ⟨nameChars⟩, some ⟨basesChars⟩)
              else none
        | b :: r7 =>
          if b = openBraceChar ∧ r7.all isSpaceChar then
            some (kind, ⟨nameChars⟩, none)
          else none
  else none

/-- First success of `f` over a list. -/
def firstSome {α β : Type} (f : α → Option β) : List α → Option β
  | [] => none
  | a :: rest =>
    match f a with
    | some b => some b
    | none => firstSome f rest

/-- `TYPE_RE.match` on a stripped line: attribute prefix, then the greedy
modifier group (longest first, with backtracking), then the keyword tail. -/
def matchType (l : List Char) : Option (String × String × Option String) :=
  let afterAttrs := skipAttrPrefix l.length l
  let positions := modsPositionsAux afterAttrs.length afterAttrs
  firstSome parseTypeAt positions.reverse

/-- The scanner state of `parse_dump` carried across lines. -/
structure ParseState where
  type_infos : List TypeInfo
  alias_map : AliasMap
  contexts : List Context
  brace_depth : Int
  pending_field : Bool
  current_type : Option Nat
deriving Repr

/-- The initial scanner state. -/
def initParseState : ParseState := ⟨[], [], [], 0, false, none⟩

/-- Placeholder dereference target; never reached on states produced by the
scanner, where every context index is in range. -/
def defaultTypeInfo : TypeInfo := ⟨"", "", "", "", none, none, [], []⟩

/-- Mark not-yet-entered contexts whose pop depth has been reached. -/
def markEntered (depth : Int) (ctxs : List Context) : List Context :=
  ctxs.map (fun c =>
    if ¬c.entered ∧ depth ≥ c.pop_depth then { c with entered := true } else c)

/-- Recompute the enclosing type after popping a type context: the innermost
entered type context. -/
def currentFromContexts (ctxs : List Context) : Option Nat :=
  match (ctxs.reverse).find? (fun c => c.kind == "type" && c.entered) with
  | some c => c.type_info
  | none => none

/-- The context-popping loop at the end of each scanned line; fuel-driven
(one pop per iteration). -/
def popContexts : Nat → List Context → Int → Option Nat → List Context × Option Nat
  | 0, ctxs, _, cur => (ctxs, cur)
  | fuel+1, ctxs, depth, cur =>
    match ctxs.getLast? with
    | none => (ctxs, cur)
    | some top =>
      if top.entered ∧ depth < top.pop_depth then
        let rest := ctxs.dropLast
        let cur2 := if top.kind == "type" then currentFromContexts rest else cur
        popContexts fuel rest depth cur2
      else (ctxs, cur)

/-- Append a field to the arena type at `idx` (instance or static list). -/
def appendFieldToType (types : List TypeInfo) (idx : Nat) (f : Field) :
    List TypeInfo :=
  match types[idx]? with
  | none => types
  | some t =>
    if f.is_static then types.set idx { t with static_fields := t.static_fields ++ [f] }
    else types.set idx { t with fields := t.fields ++ [f] }

/-- Handle a matched type-opener line: compute names, record the type, update
the alias map and push its context. The `IndexError` of
`base_candidates[0]` on an enum whose base list strips to nothing is the
`Except.error`. -/
def processTypeLine (st : ParseState) (openB : Nat) (newDepth : Int)
    (kind name : String) (bases : Option String) : Except String ParseState :=
  let parsed : Except String (Option String × Option String) :=
    match bases with
    | some bs =>
      let cands := (((bs.splitOn ",").map
        (fun b => (⟨trimChars b.data⟩ : String))).filter (fun b => b ≠ ""))
      if kind = "enum" then
        match cands.head? with
        | some c0 => .ok (none, some c0)
        | none => .error "IndexError: list index out of range"
      else
        .ok (cands.find? (fun c => ¬ IGNORED_BASES.contains c), none)
    | none => .ok (none, none)
  parsed.map (fun pe =>
    let nsParts := st.contexts.filterMap
      (fun c => if c.kind == "namespace" then some c.name else none)
    let tyParts := st.contexts.filterMap
      (fun c => if c.kind == "type" then
          some (((c.type_info.bind (fun i => st.type_infos[i]?)).getD defaultTypeInfo).short_name)
        else none)
    let fullName :=
      if nsParts = [] ∧ tyParts = [] then name
      else String.intercalate "." (nsParts ++ tyParts ++ [name])
    let ti : TypeInfo :=
      ⟨fullName, name, sanitize_struct_name fullName, kind, pe.1, pe.2, [], []⟩
    let idx := st.type_infos.length
    let am1 := aliasAdd st.alias_map fullName idx
    let am2 := aliasAdd am1 name idx
    let blockDepth := if openB > 0 then newDepth else st.brace_depth + 1
    { st with
      type_infos := st.type_infos ++ [ti]
      alias_map := am2
      contexts := st.contexts ++ [⟨"type", name, blockDepth, some idx, openB > 0⟩]
      current_type := some idx
      pending_field := false })

/-- Handle a pending field-declaration line. -/
def processFieldLine (st : ParseState) (stripped : List Char) : ParseState :=
  match split_type_and_name ⟨stripped⟩ with
  | none => { st with pending_field := false }
  | some (tp, np) =>
    let isStatic := hasSubstr (" static ".data) (' ' :: (stripped ++ [' ']))
    let f : Field := ⟨sanitize_identifier np, tp, isStatic⟩
    match st.current_type with
    | some idx =>
      { st with
        type_infos := appendFieldToType st.type_infos idx f
        pending_field := false }
    | none => { st with pending_field := false }

/-- One line of the `parse_dump` loop. -/
def processLine (st : ParseState) (raw : String) : Except String ParseState :=
  let line := rstripChars raw.data
  let stripped := trimChars line
  let openB := countChar openBraceChar line
  let closeB := countChar closeBraceChar line
  let newDepth : Int := st.brace_depth + (openB : Int) - (closeB : Int)
  let branched : Except String ParseState :=
    match matchNamespace stripped with
    | some nsName =>
      let blockDepth := if openB > 0 then newDepth else st.brace_depth + 1
      .ok { st with contexts :=
        st.contexts ++ [⟨"namespace", nsName, blockDepth, none, openB > 0⟩] }
    | none =>
      match matchType stripped with
      | some (kind, name, bases) => processTypeLine st openB newDepth kind name bases
      | none =>
        if searchFieldOffset stripped then .ok { st with pending_field := true }
        else if st.pending_field ∧ st.current_type.isSome ∧ stripped ≠ [] ∧
            ¬(stripped.head? = some '[') then
          .ok (processFieldLine st stripped)
        else .ok st
  branched.map (fun st2 =>
    let ctxs2 := markEntered newDepth st2.contexts
    let popped := popContexts ctxs2.length ctxs2 newDepth st2.current_type
    { st2 with
      brace_depth := newDepth
      contexts := popped.1
      current_type := popped.2 })

/-- `parse_dump` of `struct_gen.py` on the list of physical lines of the dump
file. -/
def parse_dump (lines : List String) : Except String (List TypeInfo × AliasMap) :=
  (lines.foldlM processLine initParseState).map
    (fun st => (st.type_infos, st.alias_map))

/-- The pointer-stripping loop of `convert_type`, on the reversed character
list: `while working.endswith("*"): pointer_suffix += "*";
working = working[:-1].rstrip()`. -/
def stripStarsLoop : Nat → List Char → Nat × List Char
  | 0, l => (0, l)
  | fuel+1, l =>
    match l with
    | '*' :: rest =>
      let r := rest.dropWhile isSpaceChar
      let p := stripStarsLoop fuel r
      (p.1 + 1, p.2)
    | _ => (0, l)

/-- The array-stripping loop of `convert_type`, on the reversed character
list: `while working.endswith("[]"): array_count += 1;
working = working[:-2].rstrip()`. -/
def stripArraysLoop : Nat → List Char → Nat × List Char
  | 0, l => (0, l)
  | fuel+1, l =>
    match l with
    | ']' :: '[' :: rest =>
      let r := rest.dropWhile isSpaceChar
      let p := stripArraysLoop fuel r
      (p.1 + 1, p.2)
    | _ => (0, l)

/-- The suffix analysis of `convert_type`: pointer count, array count, and the
remaining base name after the nullable strips and final strip. -/
def analyzeType (original : String) : Nat × Nat × String :=
  let w0 := trimChars original.data
  let r0 := w0.reverse
  let ptr := stripStarsLoop r0.length r0
  let arr := stripArraysLoop ptr.2.length ptr.2
  let r3 :=
    match arr.2 with
    | '?' :: rest => rest
    | _ => arr.2
  let w1 := deleteChar '?' r3.reverse
  let w2 := trimChars w1
  (ptr.1, arr.1, ⟨w2⟩)

/-- Python `x or default` for an optional string (`None` and `""` both give
the default). -/
def pyOrStr : Option String → String → String
  | some s, d => if s = "" then d else s
  | none, d => d

/-- `convert_type` of `struct_gen.py`: native expression and the value-type
dependency back-reference. -/
def convert_type (original : String) (amap : AliasMap) (types : List TypeInfo) :
    String × Option TypeInfo :=
  let a := analyzeType original
  let ptrN := a.1
  let arrN := a.2.1
  let base := a.2.2
  let suffix : String := ⟨List.replicate ptrN '*'⟩
  let primitive := (dget PRIMITIVE_MAP base).getD ""
  if primitive ≠ "" then
    if arrN > 0 then ("Il2CppArray*", none)
    else (primitive ++ suffix, none)
  else
    match resolveTypeInfo amap types base with
    | some referenced =>
      let baseStr :=
        if referenced.is_enum then
          (dget PRIMITIVE_MAP (pyOrStr referenced.enum_base "int32_t")).getD "int32_t"
        else if referenced.is_value_type then referenced.struct_name ++ "_o"
        else referenced.struct_name ++ "_o*"
      let dep := if referenced.is_value_type then some referenced else none
      if arrN > 0 then ("Il2CppArray*", dep)
      else (baseStr ++ suffix, dep)
    | none =>
      if arrN > 0 then ("Il2CppArray*", none)
      else if base = "IntPtr" ∨ base = "System.IntPtr" then ("intptr_t" ++ suffix, none)
      else ("Il2CppObject*", none)

/-- The parent reference followed by `emit`: `if info.parent:
parent_info = alias_map.resolve(info.parent); if parent_info: …`. -/
def parentDep (amap : AliasMap) (types : List TypeInfo) (t : TypeInfo) :
    Option TypeInfo :=
  match t.parent with
  | some p => if p = "" then none else resolveTypeInfo amap types p
  | none => none

/-- The value-type field dependencies followed by `emit`, in field order
(instance fields then static fields, as `resolve_field_types` stores them). -/
def fieldDeps (amap : AliasMap) (types : List TypeInfo) (t : TypeInfo) :
    List TypeInfo :=
  (t.fields ++ t.static_fields).filterMap
    (fun f => (convert_type f.original_type amap types).2)

/-- All recursion targets of `emit` for a type, in the order `emit` visits
them: the resolvable parent first, then the field dependencies. -/
def depsOf (amap : AliasMap) (types : List TypeInfo) (t : TypeInfo) :
    List TypeInfo :=
  (parentDep amap types t).toList ++ fieldDeps amap types t

/-- The names already emitted: Python's `emitted` set is exactly the set of
struct names of the types appended so far. -/
def emittedNames (order : List TypeInfo) : List String :=
  order.map (fun t => t.struct_name)

/-- `emit` of `generate_header`, fuel-indexed: the state is the list of types
appended to `chunks` so far, in order. Python appends `render_type(info)` and
adds `info.struct_name` to `emitted` together, after recursively emitting the
parent and the field dependencies; `none` means the recursion does not finish
within `fuel` nested calls. -/
def emitF (amap : AliasMap) (types : List TypeInfo) :
    Nat → List TypeInfo → TypeInfo → Option (List TypeInfo)
  | 0, _, _ => none
  | fuel+1, order, info =>
    if info.is_enum then some order
    else if (emittedNames order).contains info.struct_name then some order
    else
      match (depsOf amap types info).foldlM
          (fun acc d => emitF amap types fuel acc d) order with
      | none => none
      | some st => some (st ++ [info])

/-- The top-level emission loop of `generate_header`: `for info in
type_infos: emit(info)`. -/
def emitAll (amap : AliasMap) (types : List TypeInfo) (fuel : Nat) :
    Option (List TypeInfo) :=
  types.foldlM (fun acc t => emitF amap types fuel acc t) []

/-- The field lines of a rendered aggregate (`if not field.c_type: continue`
skips an empty expression). -/
def renderFieldLines (amap : AliasMap) (types : List TypeInfo)
    (fs : List Field) : String :=
  fs.foldl (fun acc f =>
    let ct := (convert_type f.original_type amap types).1
    if ct = "" then acc
    else acc ++ "\t" ++ ct ++ " " ++ f.name ++ ";\n") ""

/-- `render_type` of `struct_gen.py`: the structure group of one type (empty
for a type with no fields at all). -/
def render_type (info : TypeInfo) (amap : AliasMap) (types : List TypeInfo) :
    String :=
  if info.fields = [] ∧ info.static_fields = [] then ""
  else
    let parentDecl : Option String :=
      match info.parent with
      | some p =>
        if p = "" then none
        else
          match resolveTypeInfo amap types p with
          | some pi =>
            if ¬pi.is_enum ∧ pi.struct_name ≠ info.struct_name then
              some pi.struct_name
            else none
          | none => none
      | none => none
    let fieldsStructName := info.struct_name ++ "_Fields"
    let l1 :=
      match parentDecl with
      | some pd => "struct " ++ fieldsStructName ++ " : " ++ pd ++ "_Fields\n\x7b\n"
      | none => "struct " ++ fieldsStructName ++ "\n\x7b\n"
    let l2 := renderFieldLines amap types info.fields
    let l3 := "\x7d;\n\n"
    let l4 := "struct " ++ info.struct_name ++ "_c\n\x7b\n" ++ "\tIl2CppClass_1 _1;\n" ++
      (if info.static_fields ≠ [] then
        "\t" ++ info.struct_name ++ "_StaticFields* static_fields;\n"
       else "\tvoid* static_fields;\n") ++
      "\tIl2CppRGCTXData* rgctx_data;\n" ++ "\tIl2CppClass_2 _2;\n" ++
      "\tVirtualInvokeData vtable[32];\n" ++ "\x7d;\n\n"
    let l5 := "struct " ++ info.struct_name ++ "_o\n\x7b\n" ++
      (if ¬info.is_value_type then
        "\t" ++ info.struct_name ++ "_c *klass;\n" ++ "\tvoid *monitor;\n"
       else "") ++
      "\t" ++ fieldsStructName ++ " fields;\n" ++ "\x7d;\n\n"
    let l6 :=
      if info.static_fields ≠ [] then
        "struct " ++ info.struct_name ++ "_StaticFields\n\x7b\n" ++
          renderFieldLines amap types info.static_fields ++ "\x7d;\n\n"
      else ""
    l1 ++ l2 ++ l3 ++ l4 ++ l5 ++ l6

/-- Verbatim transcription of GENERIC_HEADER from struct_gen.py (braces escaped). -/
def GENERIC_HEADER : String :=
  "typedef void(*Il2CppMethodPointer)();\n\nstruct MethodInfo;\n\nstruct VirtualInvokeData\n\x7b\n    Il2CppMethodPointer methodPtr;\n    const MethodInfo* method;\n\x7d;\n\nstruct Il2CppType\n\x7b\n    void* data;\n    unsigned int bits;\n\x7d;\n\nstruct Il2CppClass;\n\nstruct Il2CppObject\n\x7b\n    Il2CppClass *klass;\n    void *monitor;\n\x7d;\n\nunion Il2CppRGCTXData\n\x7b\n    void* rgctxDataDummy;\n    const MethodInfo* method;\n    const Il2CppType* type;\n    Il2CppClass* klass;\n\x7d;\n\nstruct Il2CppRuntimeInterfaceOffsetPair\n\x7b\n    Il2CppClass* interfaceType;\n    int32_t offset;\n\x7d;\n\n"

/-- Verbatim transcription of the HEADER_VARIANTS dict from struct_gen.py, as an association list in insertion order (braces escaped). -/
def HEADER_VARIANTS : List (String × String) := [
  ("22",
   "struct Il2CppClass\n\x7b\n    void* image;\n    void* gc_desc;\n    const char* name;\n    const char* namespaze;\n    Il2CppType byval_arg;\n    Il2CppType this_arg;\n    Il2CppClass* element_class;\n    Il2CppClass* castClass;\n    Il2CppClass* declaringType;\n    Il2CppClass* parent;\n    void *generic_class;\n    void *typeDefinition;\n    void *interopData;\n    Il2CppClass* klass;\n    void* fields;\n    void* events;\n    void* properties;\n    void* methods;\n    Il2CppClass** nestedTypes;\n    Il2CppClass** implementedInterfaces;\n    Il2CppRuntimeInterfaceOffsetPair* interfaceOffsets;\n    int32_t cctor_started;\n    uint32_t cctor_finished;\n    size_t cctor_thread;\n    int32_t static_fields_size;\n    uint32_t instance_size;\n    uint32_t actualSize;\n    uint32_t element_size;\n    int32_t native_size;\n    uint32_t static_fields_count;\n    uint32_t thread_static_fields_size;\n    int32_t thread_static_fields_offset;\n    uint32_t flags;\n    uint32_t token;\n    uint16_t method_count;\n    uint16_t property_count;\n    uint16_t field_count;\n    uint16_t event_count;\n    uint16_t nested_type_count;\n    uint16_t vtable_count;\n    uint16_t interfaces_count;\n    uint16_t interface_offsets_count;\n    uint8_t typeHierarchyDepth;\n    uint8_t genericRecursionDepth;\n    uint8_t rank;\n    uint8_t minimumAlignment;\n    uint8_t naturalAligment;\n    uint8_t packingSize;\n    uint8_t bitflags;\n    VirtualInvokeData vtable[255];\n\x7d;\n\ntypedef uintptr_t il2cpp_array_size_t;\ntypedef int32_t il2cpp_array_lower_bound_t;\nstruct Il2CppArrayBounds\n\x7b\n    il2cpp_array_size_t length;\n    il2cpp_array_lower_bound_t lower_bound;\n\x7d;\n\nstruct Il2CppArray\n\x7b\n    Il2CppClass *klass;\n    void *monitor;\n    void *bounds;\n    il2cpp_array_size_t max_length;\n    void *vector[32];\n\x7d;\n\nstruct MethodInfo\n\x7b\n    Il2CppMethodPointer methodPointer;\n    Il2CppMethodPointer virtualMethodPointer;\n    const void *invoker_method;\n    const char* name;\n    Il2CppClass *klass;\n    const Il2CppType *return_type;\n    const Il2CppType** parameters;\n    const Il2CppRGCTXData* rgctx_data;\n    const void* generic_method;\n    uint32_t token;\n    uint16_t flags;\n    uint16_t iflags;\n    uint16_t slot;\n    uint8_t parameters_count;\n    uint8_t bitflags;\n\x7d;\n\n"),
  ("24",
   "struct Il2CppClass_1\n\x7b\n    void* image;\n    void* gc_desc;\n    const char* name;\n    const char* namespaze;\n    Il2CppType byval_arg;\n    Il2CppType this_arg;\n    Il2CppClass* element_class;\n    Il2CppClass* castClass;\n    Il2CppClass* declaringType;\n    Il2CppClass* parent;\n    void *generic_class;\n    void *typeDefinition;\n    void *interopData;\n    Il2CppClass* klass;\n    void* fields;\n    void* events;\n    void* properties;\n    void* methods;\n    Il2CppClass** nestedTypes;\n    Il2CppClass** implementedInterfaces;\n    Il2CppRuntimeInterfaceOffsetPair* interfaceOffsets;\n\x7d;\n\nstruct Il2CppClass_2\n\x7b\n    Il2CppClass** typeHierarchy;\n    void *unity_user_data;\n    uint32_t initializationExceptionGCHandle;\n    uint32_t cctor_started;\n    uint32_t cctor_finished;\n    size_t cctor_thread;\n    int32_t static_fields_size;\n    uint32_t instance_size;\n    uint32_t actualSize;\n    uint32_t element_size;\n    int32_t native_size;\n    uint32_t static_fields_count;\n    uint32_t thread_static_fields_size;\n    int32_t thread_static_fields_offset;\n    uint32_t flags;\n    uint32_t token;\n    uint16_t method_count;\n    uint16_t property_count;\n    uint16_t field_count;\n    uint16_t event_count;\n    uint16_t nested_type_count;\n    uint16_t vtable_count;\n    uint16_t interfaces_count;\n    uint16_t interface_offsets_count;\n    uint8_t typeHierarchyDepth;\n    uint8_t genericRecursionDepth;\n    uint8_t rank;\n    uint8_t minimumAlignment;\n    uint8_t naturalAligment;\n    uint8_t packingSize;\n    uint8_t bitflags;\n\x7d;\n\nstruct Il2CppClass\n\x7b\n    Il2CppClass_1 _1;\n    void* static_fields;\n    const void* rgctx_data;\n    Il2CppClass_2 _2;\n    VirtualInvokeData vtable[255];\n\x7d;\n\ntypedef uintptr_t il2cpp_array_size_t;\ntypedef int32_t il2cpp_array_lower_bound_t;\nstruct Il2CppArrayBounds\n\x7b\n    il2cpp_array_size_t length;\n    il2cpp_array_lower_bound_t lower_bound;\n\x7d;\n\nstruct Il2CppArray\n\x7b\n    Il2CppClass *klass;\n    void *monitor;\n    void *bounds;\n    il2cpp_array_size_t max_length;\n    void *vector[32];\n\x7d;\n\nstruct MethodInfo\n\x7b\n    Il2CppMethodPointer methodPointer;\n    Il2CppMethodPointer virtualMethodPointer;\n    const void *invoker_method;\n    const char* name;\n    Il2CppClass *klass;\n    const Il2CppType *return_type;\n    const Il2CppType** parameters;\n    const Il2CppRGCTXData* rgctx_data;\n    const void* genericMethod;\n    uint32_t token;\n    uint16_t flags;\n    uint16_t iflags;\n    uint16_t slot;\n    uint8_t parameters_count;\n    uint8_t bitflags;\n\x7d;\n\n"),
  ("24.1",
   "struct Il2CppClass_1\n\x7b\n    void* image;\n    void* gc_desc;\n    const char* name;\n    const char* namespaze;\n    Il2CppType byval_arg;\n    Il2CppType this_arg;\n    Il2CppClass* element_class;\n    Il2CppClass* castClass;\n    Il2CppClass* declaringType;\n    Il2CppClass* parent;\n    void *generic_class;\n    void *typeDefinition;\n    void *interopData;\n    Il2CppClass* klass;\n    void* fields;\n    void* events;\n    void* properties;\n    void* methods;\n    Il2CppClass** nestedTypes;\n    Il2CppClass** implementedInterfaces;\n    Il2CppRuntimeInterfaceOffsetPair* interfaceOffsets;\n\x7d;\n\nstruct Il2CppClass_2\n\x7b\n    Il2CppClass** typeHierarchy;\n    void *unity_user_data;\n    uint32_t initializationExceptionGCHandle;\n    uint32_t cctor_started;\n    uint32_t cctor_finished;\n    size_t cctor_thread;\n    void* genericContainerHandle;\n    int32_t static_fields_size;\n    uint32_t instance_size;\n    uint32_t actualSize;\n    uint32_t element_size;\n    int32_t native_size;\n    uint32_t static_fields_count;\n    uint32_t thread_static_fields_size;\n    int32_t thread_static_fields_offset;\n    uint32_t flags;\n    uint32_t token;\n    uint16_t method_count;\n    uint16_t property_count;\n    uint16_t field_count;\n    uint16_t event_count;\n    uint16_t nested_type_count;\n    uint16_t vtable_count;\n    uint16_t interfaces_count;\n    uint16_t interface_offsets_count;\n    uint8_t typeHierarchyDepth;\n    uint8_t genericRecursionDepth;\n    uint8_t rank;\n    uint8_t minimumAlignment;\n    uint8_t naturalAligment;\n    uint8_t packingSize;\n    uint8_t bitflags;\n\x7d;\n\nstruct Il2CppClass\n\x7b\n    Il2CppClass_1 _1;\n    void* static_fields;\n    const void* rgctx_data;\n    Il2CppClass_2 _2;\n    VirtualInvokeData vtable[255];\n\x7d;\n\ntypedef uintptr_t il2cpp_array_size_t;\ntypedef int32_t il2cpp_array_lower_bound_t;\nstruct Il2CppArrayBounds\n\x7b\n    il2cpp_array_size_t length;\n    il2cpp_array_lower_bound_t lower_bound;\n\x7d;\n\nstruct Il2CppArray\n\x7b\n    Il2CppClass *klass;\n    void *monitor;\n    void *bounds;\n    il2cpp_array_size_t max_length;\n    void *vector[32];\n\x7d;\n\nstruct MethodInfo\n\x7b\n    Il2CppMethodPointer methodPointer;\n    Il2CppMethodPointer virtualMethodPointer;\n    const void *invoker_method;\n    const char* name;\n    Il2CppClass *klass;\n    const Il2CppType *return_type;\n    const Il2CppType** parameters;\n    const Il2CppRGCTXData* rgctx_data;\n    const void* methodMetadataHandle;\n    const void* genericMethod;\n    uint32_t token;\n    uint16_t flags;\n    uint16_t iflags;\n    uint16_t slot;\n    uint8_t parameters_count;\n    uint8_t bitflags;\n\x7d;\n\n"),
  ("24.2",
   "struct Il2CppClass_1\n\x7b\n    void* image;\n    void* gc_desc;\n    const char* name;\n    const char* namespaze;\n    Il2CppType byval_arg;\n    Il2CppType this_arg;\n    Il2CppClass* element_class;\n    Il2CppClass* castClass;\n    Il2CppClass* declaringType;\n    Il2CppClass* parent;\n    void *generic_class;\n    void *typeMetadataHandle;\n    void *interopData;\n    Il2CppClass* klass;\n    void* fields;\n    void* events;\n    void* properties;\n    void* methods;\n    Il2CppClass** nestedTypes;\n    Il2CppClass** implementedInterfaces;\n    Il2CppRuntimeInterfaceOffsetPair* interfaceOffsets;\n\x7d;\n\nstruct Il2CppClass_2\n\x7b\n    Il2CppClass** typeHierarchy;\n    void *unity_user_data;\n    uint32_t initializationExceptionGCHandle;\n    uint32_t cctor_started;\n    uint32_t cctor_finished;\n    size_t cctor_thread;\n    void* genericContainerHandle;\n    uint32_t instance_size;\n    uint32_t actualSize;\n    uint32_t element_size;\n    int32_t native_size;\n    uint32_t static_fields_size;\n    uint32_t thread_static_fields_size;\n    int32_t thread_static_fields_offset;\n    uint32_t flags;\n    uint32_t token;\n    uint16_t method_count;\n    uint16_t property_count;\n    uint16_t field_count;\n    uint16_t event_count;\n    uint16_t nested_type_count;\n    uint16_t vtable_count;\n    uint16_t interfaces_count;\n    uint16_t interface_offsets_count;\n    uint8_t typeHierarchyDepth;\n    uint8_t genericRecursionDepth;\n    uint8_t rank;\n    uint8_t minimumAlignment;\n    uint8_t naturalAligment;\n    uint8_t packingSize;\n    uint8_t bitflags;\n\x7d;\n\nstruct Il2CppClass\n\x7b\n    Il2CppClass_1 _1;\n    void* static_fields;\n    const void* rgctx_data;\n    Il2CppClass_2 _2;\n    VirtualInvokeData vtable[255];\n\x7d;\n\ntypedef uintptr_t il2cpp_array_size_t;\ntypedef int32_t il2cpp_array_lower_bound_t;\nstruct Il2CppArrayBounds\n\x7b\n    il2cpp_array_size_t length;\n    il2cpp_array_lower_bound_t lower_bound;\n\x7d;\n\nstruct Il2CppArray\n\x7b\n    Il2CppClass *klass;\n    void *monitor;\n    void *bounds;\n    il2cpp_array_size_t max_length;\n    void *vector[32];\n\x7d;\n\nstruct MethodInfo\n\x7b\n    Il2CppMethodPointer methodPointer;\n    Il2CppMethodPointer virtualMethodPointer;\n    const void *invoker_method;\n    const char* name;\n    Il2CppClass *klass;\n    const Il2CppType *return_type;\n    const Il2CppType** parameters;\n    const Il2CppRGCTXData* rgctx_data;\n    const void* methodMetadataHandle;\n    const void* genericMethod;\n    uint32_t token;\n    uint16_t flags;\n    uint16_t iflags;\n    uint16_t slot;\n    uint8_t parameters_count;\n    uint8_t bitflags;\n\x7d;\n\n"),
  ("27",
   "struct Il2CppClass_1\n\x7b\n    void* image;\n    void* gc_desc;\n    const char* name;\n    const char* namespaze;\n    Il2CppType byval_arg;\n    Il2CppType this_arg;\n    Il2CppClass* element_class;\n    Il2CppClass* castClass;\n    Il2CppClass* declaringType;\n    Il2CppClass* parent;\n    void *generic_class;\n    void* typeMetadataHandle;\n    void* interopData;\n    Il2CppClass* klass;\n    void* fields;\n    void* events;\n    void* properties;\n    void* methods;\n    Il2CppClass** nestedTypes;\n    Il2CppClass** implementedInterfaces;\n    Il2CppRuntimeInterfaceOffsetPair* interfaceOffsets;\n\x7d;\n\nstruct Il2CppClass_2\n\x7b\n    Il2CppClass** typeHierarchy;\n    void *unity_user_data;\n    uint32_t initializationExceptionGCHandle;\n    uint32_t cctor_started;\n    uint32_t cctor_finished;\n    size_t cctor_thread;\n    void* genericContainerHandle;\n    uint32_t instance_size;\n    uint32_t actualSize;\n    uint32_t element_size;\n    int32_t native_size;\n    uint32_t static_fields_size;\n    uint32_t thread_static_fields_size;\n    int32_t thread_static_fields_offset;\n    uint32_t flags;\n    uint32_t token;\n    uint16_t method_count;\n    uint16_t property_count;\n    uint16_t field_count;\n    uint16_t event_count;\n    uint16_t nested_type_count;\n    uint16_t vtable_count;\n    uint16_t interfaces_count;\n    uint16_t interface_offsets_count;\n    uint8_t typeHierarchyDepth;\n    uint8_t genericRecursionDepth;\n    uint8_t rank;\n    uint8_t minimumAlignment;\n    uint8_t naturalAligment;\n    uint8_t packingSize;\n    uint8_t bitflags1;\n    uint8_t bitflags2;\n\x7d;\n\nstruct Il2CppClass\n\x7b\n    Il2CppClass_1 _1;\n    void* static_fields;\n    Il2CppRGCTXData* rgctx_data;\n    Il2CppClass_2 _2;\n    VirtualInvokeData vtable[255];\n\x7d;\n\ntypedef uintptr_t il2cpp_array_size_t;\ntypedef int32_t il2cpp_array_lower_bound_t;\nstruct Il2CppArrayBounds\n\x7b\n    il2cpp_array_size_t length;\n    il2cpp_array_lower_bound_t lower_bound;\n\x7d;\n\ntypedef void (*InvokerMethod)(Il2CppMethodPointer, const MethodInfo*, void*, void**, void*);\nstruct MethodInfo\n\x7b\n    Il2CppMethodPointer methodPointer;\n    Il2CppMethodPointer virtualMethodPointer;\n    InvokerMethod invoker_method;\n    const char* name;\n    Il2CppClass *klass;\n    const Il2CppType *return_type;\n    const Il2CppType** parameters;\n    union\n    \x7b\n        const Il2CppRGCTXData* rgctx_data;\n        const void* methodMetadataHandle;\n    \x7d;\n    union\n    \x7b\n        const void* genericMethod;\n        const void* genericContainerHandle;\n    \x7d;\n    uint32_t token;\n    uint16_t flags;\n    uint16_t iflags;\n    uint16_t slot;\n    uint8_t parameters_count;\n    uint8_t bitflags;\n\x7d;\n\n"),
  ("29",
   "struct Il2CppClass_1\n\x7b\n    void* image;\n    void* gc_desc;\n    const char* name;\n    const char* namespaze;\n    Il2CppType byval_arg;\n    Il2CppType this_arg;\n    Il2CppClass* element_class;\n    Il2CppClass* castClass;\n    Il2CppClass* declaringType;\n    Il2CppClass* parent;\n    void *generic_class;\n    void* typeMetadataHandle;\n    void* interopData;\n    Il2CppClass* klass;\n    void* fields;\n    void* events;\n    void* properties;\n    void* methods;\n    Il2CppClass** nestedTypes;\n    Il2CppClass** implementedInterfaces;\n    Il2CppRuntimeInterfaceOffsetPair* interfaceOffsets;\n\x7d;\n\nstruct Il2CppClass_2\n\x7b\n    Il2CppClass** typeHierarchy;\n    void *unity_user_data;\n    uint32_t initializationExceptionGCHandle;\n    uint32_t cctor_started;\n    uint32_t cctor_finished;\n    size_t cctor_thread;\n    void* genericContainerHandle;\n    uint32_t instance_size;\n    uint32_t actualSize;\n    uint32_t element_size;\n    int32_t native_size;\n    uint32_t static_fields_size;\n    uint32_t thread_static_fields_size;\n    int32_t thread_static_fields_offset;\n    uint32_t flags;\n    uint32_t token;\n    uint16_t method_count;\n    uint16_t property_count;\n    uint16_t field_count;\n    uint16_t event_count;\n    uint16_t nested_type_count;\n    uint16_t vtable_count;\n    uint16_t interfaces_count;\n    uint16_t interface_offsets_count;\n    uint8_t typeHierarchyDepth;\n    uint8_t genericRecursionDepth;\n    uint8_t rank;\n    uint8_t minimumAlignment;\n    uint8_t naturalAligment;\n    uint8_t packingSize;\n    uint8_t bitflags1;\n    uint8_t bitflags2;\n\x7d;\n\nstruct Il2CppClass\n\x7b\n    Il2CppClass_1 _1;\n    void* static_fields;\n    Il2CppRGCTXData* rgctx_data;\n    Il2CppClass_2 _2;\n    VirtualInvokeData vtable[255];\n\x7d;\n\ntypedef uintptr_t il2cpp_array_size_t;\ntypedef int32_t il2cpp_array_lower_bound_t;\nstruct Il2CppArrayBounds\n\x7b\n    il2cpp_array_size_t length;\n    il2cpp_array_lower_bound_t lower_bound;\n\x7d;\n\ntypedef void (*InvokerMethod)(Il2CppMethodPointer, const MethodInfo*, void*, void**, void*);\nstruct MethodInfo\n\x7b\n    Il2CppMethodPointer methodPointer;\n    Il2CppMethodPointer virtualMethodPointer;\n    InvokerMethod invoker_method;\n    const char* name;\n    Il2CppClass *klass;\n    const Il2CppType *return_type;\n    const Il2CppType** parameters;\n    union\n    \x7b\n        const Il2CppRGCTXData* rgctx_data;\n        const void* methodMetadataHandle;\n    \x7d;\n    union\n    \x7b\n        const void* genericMethod;\n        const void* genericContainerHandle;\n    \x7d;\n    uint32_t token;\n    uint16_t flags;\n    uint16_t iflags;\n    uint16_t slot;\n    uint8_t parameters_count;\n    uint8_t bitflags;\n\x7d;\n\n")
]

/-- `generate_header` of `struct_gen.py`: run the emission loop (fuel-indexed),
then select the version preamble; an unsupported (or empty) variant raises
`ValueError` after the chunks are computed, before any output exists. -/
def generate_header (fuel : Nat) (type_infos : List TypeInfo) (amap : AliasMap)
    (header_version : String) : Option (Except String String) :=
  match emitAll amap type_infos fuel with
  | none => none
  | some order =>
    let chunks := order.map (fun t => render_type t amap type_infos)
    let variant := (dget HEADER_VARIANTS header_version).getD ""
    if variant = "" then
      some (.error ("Unsupported header version: " ++ header_version))
    else some (.ok (GENERIC_HEADER ++ variant ++ String.join chunks))

/-- The pipeline part of `main` after the CLI wrapper: parse the dump lines,
fail when no types were discovered (`SystemExit`), and otherwise produce the
header text that `main` writes to the output file. `some (.ok text)` is the
only case in which the output file is written; `some (.error msg)` is an
abort before any write; `none` is divergence of the emission recursion. -/
def run_main (lines : List String) (header_version : String) (fuel : Nat) :
    Option (Except String String) :=
  match parse_dump lines with
  | .error e => some (.error e)
  | .ok p =>
    if p.1.length = 0 then
      some (.error "No types discovered in dump.cs; is the file valid?")
    else generate_header fuel p.1 p.2 header_version

/-! ### Specification vocabulary and concrete instances for the claim
analysis -/

/-- The dependency relation admits a rank function: every `emit` recursion
edge (resolvable parent, value-type field dependency) strictly decreases the
rank of the struct name. This is the acyclicity premise under which the
renderer's recursion completes. -/
@[reducible] def RankBounded (amap : AliasMap) (types : List TypeInfo)
    (rank : String → Nat) : Prop :=
  ∀ t ∈ types, ∀ d ∈ depsOf amap types t,
    rank d.struct_name < rank t.struct_name

/-- Dependency ordering of an emission order: every non-enum dependency of
the type at position `j` already has its struct name among the names emitted
strictly before `j`. -/
def DepsBefore (amap : AliasMap) (types : List TypeInfo)
    (order : List TypeInfo) : Prop :=
  ∀ (j : Nat) (hj : j < order.length),
    ∀ d ∈ depsOf amap types (order.get ⟨j, hj⟩),
      d.is_enum = false → d.struct_name ∈ emittedNames (order.take j)

/-- The emission loop never finishes, whatever the fuel: the shape divergence
of Python's unbounded `emit` recursion takes in the fuel model. -/
def EmissionDiverges (amap : AliasMap) (types : List TypeInfo) : Prop :=
  ∀ fuel : Nat, emitAll amap types fuel = none

/-- Counterexample dump for C4: a top-level class `A_B` and a nested struct
`A.B` sanitize to the same struct name `A_B`, and the class has a field of
the struct's type. -/
def c4Dump : List String :=
  ["public class A_B",
   "\x7b",
   "\t[FieldOffset(0x10)]",
   "\tpublic A.B x;",
   "\x7d",
   "namespace A",
   "\x7b",
   "\tpublic struct B",
   "\t\x7b",
   "\t\t[FieldOffset(0x0)]",
   "\t\tpublic int y;",
   "\t\x7d",
   "\x7d"]

/-- The class `A_B` discovered first in `c4Dump`. -/
def c4T1 : TypeInfo :=
  ⟨"A_B", "A_B", "A_B", "class", none, none, [⟨"x", "A.B", false⟩], []⟩

/-- The struct `A.B` discovered second in `c4Dump`; its struct name collides
with `c4T1`'s. -/
def c4T2 : TypeInfo :=
  ⟨"A.B", "B", "A_B", "struct", none, none, [⟨"y", "int", false⟩], []⟩

/-- The parsed type list of `c4Dump`. -/
def c4Types : List TypeInfo := [c4T1, c4T2]

/-- The parsed alias map of `c4Dump`. -/
def c4Map : AliasMap := [("A_B", some 0), ("A.B", some 1), ("B", some 1)]

/-- Counterexample dump for C3: struct `N_S` (a field dependency of `B`)
collides with the empty nested struct `N.S`; `B` references both. -/
def c3Dump : List String :=
  ["public struct N_S",
   "\x7b",
   "\t[FieldOffset(0x0)]",
   "\tpublic B b;",
   "\x7d",
   "namespace N",
   "\x7b",
   "\tpublic struct S",
   "\t\x7b",
   "\t\x7d",
   "\x7d",
   "public struct B",
   "\x7b",
   "\t[FieldOffset(0x0)]",
   "\tpublic N.S x;",
   "\t[FieldOffset(0x4)]",
   "\tpublic N_S y;",
   "\x7d"]

/-- The struct `N_S` of `c3Dump`. -/
def c3TA : TypeInfo :=
  ⟨"N_S", "N_S", "N_S", "struct", none, none, [⟨"b", "B", false⟩], []⟩

/-- The empty nested struct `N.S` of `c3Dump` (struct name also `N_S`). -/
def c3T2 : TypeInfo :=
  ⟨"N.S", "S", "N_S", "struct", none, none, [], []⟩

/-- The struct `B` of `c3Dump`. -/
def c3TB : TypeInfo :=
  ⟨"B", "B", "B", "struct", none, none,
    [⟨"x", "N.S", false⟩, ⟨"y", "N_S", false⟩], []⟩

/-- The parsed type list of `c3Dump`. -/
def c3Types : List TypeInfo := [c3TA, c3T2, c3TB]

/-- The parsed alias map of `c3Dump`. -/
def c3Map : AliasMap :=
  [("N_S", some 0), ("N.S", some 1), ("S", some 1), ("B", some 2)]

/-- Counterexample dump for C7: two structs whose fields reference each
other, a value-type dependency cycle. -/
def c7Dump : List String :=
  ["public struct A",
   "\x7b",
   "\t[FieldOffset(0x0)]",
   "\tpublic B b;",
   "\x7d",
   "public struct B",
   "\x7b",
   "\t[FieldOffset(0x0)]",
   "\tpublic A a;",
   "\x7d"]

/-- The struct `A` of `c7Dump`. -/
def c7TA : TypeInfo :=
  ⟨"A", "A", "A", "struct", none, none, [⟨"b", "B", false⟩], []⟩

/-- The struct `B` of `c7Dump`. -/
def c7TB : TypeInfo :=
  ⟨"B", "B", "B", "struct", none, none, [⟨"a", "A", false⟩], []⟩

/-- The parsed type list of `c7Dump`. -/
def c7Types : List TypeInfo := [c7TA, c7TB]

/-- The parsed alias map of `c7Dump`. -/
def c7Map : AliasMap := [("A", some 0), ("B", some 1)]

/-- Witness instance shared by the amended renderer claims: a struct `A` and
a class `B` with one field of `A`'s type — an acyclic dependency graph. -/
def wStructA : TypeInfo := ⟨"A", "A", "A", "struct", none, none, [], []⟩

/-- The class of the witness instance. -/
def wClassB : TypeInfo :=
  ⟨"B", "B", "B", "class", none, none, [⟨"f", "A", false⟩], []⟩

/-- The witness type list. -/
def wTypesAB : List TypeInfo := [wStructA, wClassB]

/-- The witness alias map. -/
def wMapAB : AliasMap := [("A", some 0), ("B", some 1)]

/-- A rank function witnessing acyclicity of `wTypesAB`'s dependencies. -/
def wRankAB : String → Nat := fun n => if n = "A" then 0 else 1

/-! ### Character-class facts -/

theorem space_not_wordChar {c : Char} (h : isSpaceChar c = true) :
    isWordChar c = false := by
  unfold isSpaceChar at h
  simp only [Bool.or_eq_true, beq_iff_eq] at h
  rcases h with ((((h | h) | h) | h) | h) | h <;> subst h <;> decide

theorem wordChar_not_space {c : Char} (h : isWordChar c = true) :
    isSpaceChar c = false := by
  by_contra hs
  rw [Bool.not_eq_false] at hs
  rw [space_not_wordChar hs] at h
  exact Bool.false_ne_true h

/-! ### Generic helpers -/

theorem map_eq_self_of {α : Type} (f : α → α) :
    ∀ l : List α, (∀ c ∈ l, f c = c) → l.map f = l := by
  intro l h
  induction l with
  | nil => rfl
  | cons d r ih =>
    simp only [List.map_cons]
    rw [h d (List.mem_cons_self d r), ih (fun c hc => h c (List.mem_cons_of_mem d hc))]

theorem lstripChars_eq_self {l : List Char} (h : ∀ c ∈ l, isSpaceChar c = false) :
    lstripChars l = l := by
  cases l with
  | nil => rfl
  | cons c rest =>
    have hc : isSpaceChar c = false := h c (List.mem_cons_self c rest)
    simp [lstripChars, List.dropWhile, hc]

theorem rstripChars_eq_self {l : List Char} (h : ∀ c ∈ l, isSpaceChar c = false) :
    rstripChars l = l := by
  unfold rstripChars
  have h2 : l.reverse.dropWhile isSpaceChar = l.reverse := by
    cases hr : l.reverse with
    | nil => rfl
    | cons c rest =>
      have hc : c ∈ l := by
        rw [← List.mem_reverse, hr]; exact List.mem_cons_self c rest
      simp [List.dropWhile, h c hc]
  rw [h2, List.reverse_reverse]

theorem trimChars_eq_self {l : List Char} (h : ∀ c ∈ l, isSpaceChar c = false) :
    trimChars l = l := by
  unfold trimChars
  rw [lstripChars_eq_self h, rstripChars_eq_self h]

/-! ### Lemmas on the replace/collapse steps -/

theorem mem_replaceChar {c a b : Char} {l : List Char} (h : c ∈ replaceChar a b l) :
    c = b ∨ c ∈ l := by
  unfold replaceChar at h
  rcases List.mem_map.mp h with ⟨d, hd, he⟩
  by_cases hda : d = a
  · subst hda; rw [if_pos rfl] at he; exact Or.inl he.symm
  · rw [if_neg hda] at he; exact Or.inr (he ▸ hd)

theorem not_mem_replaceChar_self {a b : Char} (hab : a ≠ b) (l : List Char) :
    a ∉ replaceChar a b l := by
  intro h
  unfold replaceChar at h
  rcases List.mem_map.mp h with ⟨d, _, he⟩
  by_cases hda : d = a
  · subst hda; rw [if_pos rfl] at he; exact hab he.symm
  · rw [if_neg hda] at he; exact hda he

theorem not_mem_replaceChar {c a b : Char} {l : List Char} (hc : c ∉ l) (hcb : c ≠ b) :
    c ∉ replaceChar a b l := by
  intro h
  rcases mem_replaceChar h with h1 | h2
  · exact hcb h1
  · exact hc h2

theorem replaceChar_eq_self {a b : Char} {l : List Char} (ha : a ∉ l) :
    replaceChar a b l = l := by
  unfold replaceChar
  apply map_eq_self_of
  intro c hc
  rw [if_neg (fun (e : c = a) => ha (e ▸ hc))]

theorem mem_deleteChar {c a : Char} {l : List Char} (h : c ∈ deleteChar a l) : c ∈ l :=
  List.mem_of_mem_filter h

theorem not_mem_deleteChar_self (a : Char) (l : List Char) : a ∉ deleteChar a l := by
  intro h
  unfold deleteChar at h
  have h2 := (List.mem_filter.mp h).2
  simp at h2

theorem not_mem_deleteChar {c a : Char} {l : List Char} (hc : c ∉ l) :
    c ∉ deleteChar a l := fun h => hc (mem_deleteChar h)

theorem deleteChar_eq_self {a : Char} {l : List Char} (ha : a ∉ l) :
    deleteChar a l = l := by
  unfold deleteChar
  apply List.filter_eq_self.mpr
  intro c hc
  simp only [bne_iff_ne, ne_eq]
  exact fun (e : c = a) => ha (e ▸ hc)

theorem mem_replaceDoubleColon {c : Char} :
    ∀ {l : List Char}, c ∈ replaceDoubleColon l → c = '.' ∨ c ∈ l := by
  intro l
  induction l using replaceDoubleColon.induct with
  | case1 => intro h; simp [replaceDoubleColon] at h
  | case2 d => intro h; simp only [replaceDoubleColon] at h; exact Or.inr h
  | case3 a d rest hcd ih =>
    intro h
    rw [replaceDoubleColon, if_pos hcd] at h
    rcases List.mem_cons.mp h with h1 | h2
    · exact Or.inl h1
    · rcases ih h2 with h3 | h4
      · exact Or.inl h3
      · exact Or.inr (List.mem_cons_of_mem a (List.mem_cons_of_mem d h4))
  | case4 a d rest hcd ih =>
    intro h
    rw [replaceDoubleColon, if_neg hcd] at h
    rcases List.mem_cons.mp h with h1 | h2
    · exact Or.inr (by simp [h1])
    · rcases ih h2 with h3 | h4
      · exact Or.inl h3
      · exact Or.inr (List.mem_cons_of_mem a h4)

theorem not_mem_replaceDoubleColon {c : Char} {l : List Char} (hc : c ∉ l)
    (hcd : c ≠ '.') : c ∉ replaceDoubleColon l := by
  intro h
  rcases mem_replaceDoubleColon h with h1 | h2
  · exact hcd h1
  · exact hc h2

theorem replaceDoubleColon_eq_self :
    ∀ {l : List Char}, ':' ∉ l → replaceDoubleColon l = l := by
  intro l
  induction l using replaceDoubleColon.induct with
  | case1 => intro _; rfl
  | case2 d => intro _; rfl
  | case3 a d rest hcd ih =>
    intro h
    exact absurd (by simp [hcd.1]) h
  | case4 a d rest hcd ih =>
    intro h
    rw [replaceDoubleColon, if_neg hcd, ih (fun hm => h (List.mem_cons_of_mem a hm))]

theorem mem_replaceSpaceBacktick {c : Char} :
    ∀ {l : List Char}, c ∈ replaceSpaceBacktick l → c = backtickChar ∨ c ∈ l := by
  intro l
  induction l using replaceSpaceBacktick.induct with
  | case1 => intro h; simp [replaceSpaceBacktick] at h
  | case2 d => intro h; simp only [replaceSpaceBacktick] at h; exact Or.inr h
  | case3 a d rest hcd ih =>
    intro h
    rw [replaceSpaceBacktick, if_pos hcd] at h
    rcases List.mem_cons.mp h with h1 | h2
    · exact Or.inl h1
    · rcases ih h2 with h3 | h4
      · exact Or.inl h3
      · exact Or.inr (List.mem_cons_of_mem a (List.mem_cons_of_mem d h4))
  | case4 a d rest hcd ih =>
    intro h
    rw [replaceSpaceBacktick, if_neg hcd] at h
    rcases List.mem_cons.mp h with h1 | h2
    · exact Or.inr (by simp [h1])
    · rcases ih h2 with h3 | h4
      · exact Or.inl h3
      · exact Or.inr (List.mem_cons_of_mem a h4)

theorem not_mem_replaceSpaceBacktick {c : Char} {l : List Char} (hc : c ∉ l)
    (hcb : c ≠ backtickChar) : c ∉ replaceSpaceBacktick l := by
  intro h
  rcases mem_replaceSpaceBacktick h with h1 | h2
  · exact hcb h1
  · exact hc h2

theorem replaceSpaceBacktick_eq_self :
    ∀ {l : List Char}, ' ' ∉ l → replaceSpaceBacktick l = l := by
  intro l
  induction l using replaceSpaceBacktick.induct with
  | case1 => intro _; rfl
  | case2 d => intro _; rfl
  | case3 a d rest hcd ih =>
    intro h
    exact absurd (by simp [hcd.1]) h
  | case4 a d rest hcd ih =>
    intro h
    rw [replaceSpaceBacktick, if_neg hcd, ih (fun hm => h (List.mem_cons_of_mem a hm))]

theorem mem_collapseAux {c : Char} :
    ∀ (l : List Char) (b : Bool), c ∈ collapseAux b l → c ∈ l := by
  intro l
  induction l with
  | nil => intro b h; simp [collapseAux] at h
  | cons d rest ih =>
    intro b h
    rw [collapseAux] at h
    by_cases hd : d = '_'
    · rw [if_pos hd] at h
      cases b with
      | true =>
        rw [if_pos rfl] at h
        exact List.mem_cons_of_mem d (ih true h)
      | false =>
        rw [if_neg (by simp)] at h
        rcases List.mem_cons.mp h with h1 | h2
        · simp [h1, hd]
        · exact List.mem_cons_of_mem d (ih true h2)
    · rw [if_neg hd] at h
      rcases List.mem_cons.mp h with h1 | h2
      · simp [h1]
      · exact List.mem_cons_of_mem d (ih false h2)

theorem collapseAux_head_true {l : List Char} :
    ∀ c, (collapseAux true l).head? = some c → c ≠ '_' := by
  induction l with
  | nil => intro c h; simp [collapseAux] at h
  | cons d rest ih =>
    intro c h
    rw [collapseAux] at h
    by_cases hd : d = '_'
    · rw [if_pos hd, if_pos rfl] at h
      exact ih c h
    · rw [if_neg hd] at h
      simp only [List.head?_cons, Option.some.injEq] at h
      exact h ▸ hd

theorem collapseAux_chain : ∀ (l : List Char) (b : Bool), NoAdjU (collapseAux b l) := by
  intro l
  induction l with
  | nil => intro b; simp [collapseAux, NoAdjU]
  | cons d rest ih =>
    intro b
    rw [collapseAux]
    by_cases hd : d = '_'
    · rw [if_pos hd]
      cases b with
      | true => rw [if_pos rfl]; exact ih true
      | false =>
        rw [if_neg (by simp)]
        refine List.chain'_cons'.mpr ⟨?_, ih true⟩
        intro y hy hcon
        exact collapseAux_head_true y hy hcon.2
    · rw [if_neg hd]
      refine List.chain'_cons'.mpr ⟨?_, ih false⟩
      intro y hy hcon
      exact hd hcon.1

theorem collapseAux_eq_self :
    ∀ (l : List Char), NoAdjU l → ∀ (b : Bool),
      (b = true → l.head? ≠ some '_') → collapseAux b l = l := by
  intro l
  induction l with
  | nil => intro _ b _; rfl
  | cons d rest ih =>
    intro hna b hb
    have hrest : NoAdjU rest := (List.chain'_cons'.mp hna).2
    rw [collapseAux]
    by_cases hd : d = '_'
    · cases b with
      | true => exact absurd (show (d :: rest).head? = some '_' by simp [hd]) (hb rfl)
      | false =>
        rw [if_pos hd, if_neg (by simp)]
        have hrh : rest.head? ≠ some '_' := by
          intro hh
          exact (List.chain'_cons'.mp hna).1 '_' hh ⟨hd, rfl⟩
        rw [ih hrest true (fun _ => hrh), hd]
    · rw [if_neg hd]
      rw [ih hrest false (by simp)]

theorem mem_stripLeadingUnderscore {c : Char} {l : List Char}
    (h : c ∈ stripLeadingUnderscore l) : c ∈ l := by
  cases l with
  | nil => simp [stripLeadingUnderscore] at h
  | cons d rest =>
    rw [stripLeadingUnderscore] at h
    by_cases hd : d = '_'
    · rw [if_pos hd] at h; exact List.mem_cons_of_mem d h
    · rwa [if_neg hd] at h

theorem stripLeadingUnderscore_eq_self {l : List Char} (h : l.head? ≠ some '_') :
    stripLeadingUnderscore l = l := by
  cases l with
  | nil => rfl
  | cons d rest =>
    rw [stripLeadingUnderscore, if_neg]
    intro hd
    exact h (by simp [hd])

theorem stripLeadingUnderscore_noAdj {l : List Char} (h : NoAdjU l) :
    NoAdjU (stripLeadingUnderscore l) := by
  cases l with
  | nil => exact h
  | cons d rest =>
    rw [stripLeadingUnderscore]
    by_cases hd : d = '_'
    · rw [if_pos hd]; exact (List.chain'_cons'.mp h).2
    · rwa [if_neg hd]

theorem stripLeadingUnderscore_head {l : List Char} (h : NoAdjU l) :
    (stripLeadingUnderscore l).head? ≠ some '_' := by
  cases l with
  | nil => simp [stripLeadingUnderscore]
  | cons d rest =>
    rw [stripLeadingUnderscore]
    by_cases hd : d = '_'
    · rw [if_pos hd]
      intro hh
      exact (List.chain'_cons'.mp h).1 '_' hh ⟨hd, rfl⟩
    · rw [if_neg hd]
      simp only [List.head?_cons, ne_eq, Option.some.injEq]
      exact hd

theorem noAdjU_of_no_underscore {l : List Char} (h : '_' ∉ l) : NoAdjU l := by
  induction l with
  | nil => simp [NoAdjU]
  | cons d rest ih =>
    refine List.chain'_cons'.mpr ⟨?_, ih (fun hm => h (List.mem_cons_of_mem d hm))⟩
    intro y _ hcon
    exact h (by simp [hcon.1])

theorem mem_prefixDigitUnderscore {c : Char} {l : List Char}
    (h : c ∈ prefixDigitUnderscore l) : c = '_' ∨ c ∈ l := by
  cases l with
  | nil => simp [prefixDigitUnderscore] at h
  | cons d rest =>
    rw [prefixDigitUnderscore] at h
    by_cases hd : d.isDigit
    · rw [if_pos hd] at h
      rcases List.mem_cons.mp h with h1 | h2
      · exact Or.inl h1
      · exact Or.inr h2
    · rw [if_neg hd] at h
      exact Or.inr h

theorem prefixDigitUnderscore_eq_self {l : List Char}
    (h : ∀ c, l.head? = some c → c.isDigit = false) : prefixDigitUnderscore l = l := by
  cases l with
  | nil => rfl
  | cons d rest =>
    rw [prefixDigitUnderscore, if_neg]
    rw [h d (by simp)]
    simp

theorem prefixDigitUnderscore_head {l : List Char} :
    ∀ c, (prefixDigitUnderscore l).head? = some c → c.isDigit = false := by
  cases l with
  | nil => intro c h; simp [prefixDigitUnderscore] at h
  | cons d rest =>
    intro c h
    rw [prefixDigitUnderscore] at h
    by_cases hd : d.isDigit
    · rw [if_pos hd] at h
      simp only [List.head?_cons, Option.some.injEq] at h
      subst h; decide
    · rw [if_neg hd] at h
      simp only [List.head?_cons, Option.some.injEq] at h
      subst h
      exact Bool.not_eq_true _ ▸ (by simpa using hd)

theorem prefixDigitUnderscore_noAdj {l : List Char} (h : NoAdjU l) :
    NoAdjU (prefixDigitUnderscore l) := by
  cases l with
  | nil => exact h
  | cons d rest =>
    rw [prefixDigitUnderscore]
    by_cases hd : d.isDigit
    · rw [if_pos hd]
      refine List.chain'_cons.mpr ⟨?_, h⟩
      intro hcon
      rw [hcon.2] at hd
      exact absurd hd (by decide)
    · rw [if_neg hd]
      exact h

theorem prefixDigitUnderscore_ne_nil {l : List Char} (h : l ≠ []) :
    prefixDigitUnderscore l ≠ [] := by
  cases l with
  | nil => exact absurd rfl h
  | cons d rest =>
    rw [prefixDigitUnderscore]
    by_cases hd : d.isDigit
    · rw [if_pos hd]; simp
    · rw [if_neg hd]; simp

theorem dropVerbatimAt_eq_self {l : List Char} (h : l.head? ≠ some '@') :
    dropVerbatimAt l = l := by
  cases l with
  | nil => rfl
  | cons d rest =>
    rw [dropVerbatimAt, if_neg]
    intro hd
    exact h (by simp [hd])

/-! ### Normal form of `sanitize_struct_name` and idempotence -/

theorem sanitizeStructChars_props (l : List Char) :
    NoAdjU (sanitizeStructChars l) ∧ (sanitizeStructChars l).head? ≠ some '_' ∧
    ∀ c ∈ sanitizeStructChars l,
      c ≠ ':' ∧ c ≠ '+' ∧ c ≠ '/' ∧ c ≠ backtickChar ∧ c ≠ '<' ∧ c ≠ '>' ∧
      c ≠ ',' ∧ c ≠ ' ' ∧ c ≠ '[' ∧ c ≠ ']' ∧ c ≠ '-' ∧ c ≠ '.' := by
  unfold sanitizeStructChars collapseUnderscores
  set t1 := replaceChar '+' '.' (replaceDoubleColon l) with ht1
  set t2 := replaceChar '/' '.' t1 with ht2
  set t3 := replaceSpaceBacktick t2 with ht3
  set t4 := replaceChar backtickChar '_' t3 with ht4
  set t5 := replaceChar '<' '_' t4 with ht5
  set t6 := deleteChar '>' t5 with ht6
  set t7 := replaceChar ',' '_' t6 with ht7
  set t8 := replaceChar ' ' '_' t7 with ht8
  set t9 := replaceChar '[' '_' t8 with ht9
  set t10 := deleteChar ']' t9 with ht10
  set t11 := replaceChar '-' '_' t10 with ht11
  set t12 := replaceChar ':' '_' t11 with ht12
  set t13 := replaceChar '.' '_' t12 with ht13
  refine ⟨stripLeadingUnderscore_noAdj (collapseAux_chain t13 false),
    stripLeadingUnderscore_head (collapseAux_chain t13 false), ?_⟩
  intro c hc
  have hct13 : c ∈ t13 := mem_collapseAux t13 false (mem_stripLeadingUnderscore hc)
  have hdot : '.' ∉ t13 := by
    rw [ht13]; exact not_mem_replaceChar_self (by decide) t12
  have hcolon : ':' ∉ t13 := by
    rw [ht13]
    refine not_mem_replaceChar ?_ (by decide)
    rw [ht12]; exact not_mem_replaceChar_self (by decide) t11
  have hdash : '-' ∉ t13 := by
    rw [ht13]
    refine not_mem_replaceChar ?_ (by decide)
    rw [ht12]
    refine not_mem_replaceChar ?_ (by decide)
    rw [ht11]; exact not_mem_replaceChar_self (by decide) t10
  have hrb : ']' ∉ t13 := by
    rw [ht13]
    refine not_mem_replaceChar ?_ (by decide)
    rw [ht12]
    refine not_mem_replaceChar ?_ (by decide)
    rw [ht11]
    refine not_mem_replaceChar ?_ (by decide)
    rw [ht10]; exact not_mem_deleteChar_self ']' t9
  have hlb : '[' ∉ t13 := by
    rw [ht13]
    refine not_mem_replaceChar ?_ (by decide)
    rw [ht12]
    refine not_mem_replaceChar ?_ (by decide)
    rw [ht11]
    refine not_mem_replaceChar ?_ (by decide)
    rw [ht10]
    refine not_mem_deleteChar ?_
    rw [ht9]; exact not_mem_replaceChar_self (by decide) t8
  have hspace : ' ' ∉ t13 := by
    rw [ht13]
    refine not_mem_replaceChar ?_ (by decide)
    rw [ht12]
    refine not_mem_replaceChar ?_ (by decide)
    rw [ht11]
    refine not_mem_replaceChar ?_ (by decide)
    rw [ht10]
    refine not_mem_deleteChar ?_
    rw [ht9]
    refine not_mem_replaceChar ?_ (by decide)
    rw [ht8]; exact not_mem_replaceChar_self (by decide) t7
  have hcomma : ',' ∉ t13 := by
    rw [ht13]
    refine not_mem_replaceChar ?_ (by decide)
    rw [ht12]
    refine not_mem_replaceChar ?_ (by decide)
    rw [ht11]
    refine not_mem_replaceChar ?_ (by decide)
    rw [ht10]
    refine not_mem_deleteChar ?_
    rw [ht9]
    refine not_mem_replaceChar ?_ (by decide)
    rw [ht8]
    refine not_mem_replaceChar ?_ (by decide)
    rw [ht7]; exact not_mem_replaceChar_self (by decide) t6
  have hgt : '>' ∉ t13 := by
    rw [ht13]
    refine not_mem_replaceChar ?_ (by decide)
    rw [ht12]
    refine not_mem_replaceChar ?_ (by decide)
    rw [ht11]
    refine not_mem_replaceChar ?_ (by decide)
    rw [ht10]
    refine not_mem_deleteChar ?_
    rw [ht9]
    refine not_mem_replaceChar ?_ (by decide)
    rw [ht8]
    refine not_mem_replaceChar ?_ (by decide)
    rw [ht7]
    refine not_mem_replaceChar ?_ (by decide)
    rw [ht6]; exact not_mem_deleteChar_self '>' t5
  have hlt : '<' ∉ t13 := by
    rw [ht13]
    refine not_mem_replaceChar ?_ (by decide)
    rw [ht12]
    refine not_mem_replaceChar ?_ (by decide)
    rw [ht11]
    refine not_mem_replaceChar ?_ (by decide)
    rw [ht10]
    refine not_mem_deleteChar ?_
    rw [ht9]
    refine not_mem_replaceChar ?_ (by decide)
    rw [ht8]
    refine not_mem_replaceChar ?_ (by decide)
    rw [ht7]
    refine not_mem_replaceChar ?_ (by decide)
    rw [ht6]
    refine not_mem_deleteChar ?_
    rw [ht5]; exact not_mem_replaceChar_self (by decide) t4
  have htick : backtickChar ∉ t13 := by
    rw [ht13]
    refine not_mem_replaceChar ?_ (by decide)
    rw [ht12]
    refine not_mem_replaceChar ?_ (by decide)
    rw [ht11]
    refine not_mem_replaceChar ?_ (by decide)
    rw [ht10]
    refine not_mem_deleteChar ?_
    rw [ht9]
    refine not_mem_replaceChar ?_ (by decide)
    rw [ht8]
    refine not_mem_replaceChar ?_ (by decide)
    rw [ht7]
    refine not_mem_replaceChar ?_ (by decide)
    rw [ht6]
    refine not_mem_deleteChar ?_
    rw [ht5]
    refine not_mem_replaceChar ?_ (by decide)
    rw [ht4]; exact not_mem_replaceChar_self (by decide) t3
  have hslash : '/' ∉ t13 := by
    rw [ht13]
    refine not_mem_replaceChar ?_ (by decide)
    rw [ht12]
    refine not_mem_replaceChar ?_ (by decide)
    rw [ht11]
    refine not_mem_replaceChar ?_ (by decide)
    rw [ht10]
    refine not_mem_deleteChar ?_
    rw [ht9]
    refine not_mem_replaceChar ?_ (by decide)
    rw [ht8]
    refine not_mem_replaceChar ?_ (by decide)
    rw [ht7]
    refine not_mem_replaceChar ?_ (by decide)
    rw [ht6]
    refine not_mem_deleteChar ?_
    rw [ht5]
    refine not_mem_replaceChar ?_ (by decide)
    rw [ht4]
    refine not_mem_replaceChar ?_ (by decide)
    rw [ht3]
    refine not_mem_replaceSpaceBacktick ?_ (by decide)
    rw [ht2]; exact not_mem_replaceChar_self (by decide) t1
  have hplus : '+' ∉ t13 := by
    rw [ht13]
    refine not_mem_replaceChar ?_ (by decide)
    rw [ht12]
    refine not_mem_replaceChar ?_ (by decide)
    rw [ht11]
    refine not_mem_replaceChar ?_ (by decide)
    rw [ht10]
    refine not_mem_deleteChar ?_
    rw [ht9]
    refine not_mem_replaceChar ?_ (by decide)
    rw [ht8]
    refine not_mem_replaceChar ?_ (by decide)
    rw [ht7]
    refine not_mem_replaceChar ?_ (by decide)
    rw [ht6]
    refine not_mem_deleteChar ?_
    rw [ht5]
    refine not_mem_replaceChar ?_ (by decide)
    rw [ht4]
    refine not_mem_replaceChar ?_ (by decide)
    rw [ht3]
    refine not_mem_replaceSpaceBacktick ?_ (by decide)
    rw [ht2]
    refine not_mem_replaceChar ?_ (by decide)
    rw [ht1]; exact not_mem_replaceChar_self (by decide) (replaceDoubleColon l)
  exact ⟨fun e => hcolon (e ▸ hct13), fun e => hplus (e ▸ hct13),
    fun e => hslash (e ▸ hct13), fun e => htick (e ▸ hct13),
    fun e => hlt (e ▸ hct13), fun e => hgt (e ▸ hct13),
    fun e => hcomma (e ▸ hct13), fun e => hspace (e ▸ hct13),
    fun e => hlb (e ▸ hct13), fun e => hrb (e ▸ hct13),
    fun e => hdash (e ▸ hct13), fun e => hdot (e ▸ hct13)⟩

theorem sanitizeStructChars_eq_self {w : List Char}
    (hna : NoAdjU w) (hh : w.head? ≠ some '_')
    (hchars : ∀ c ∈ w,
      c ≠ ':' ∧ c ≠ '+' ∧ c ≠ '/' ∧ c ≠ backtickChar ∧ c ≠ '<' ∧ c ≠ '>' ∧
      c ≠ ',' ∧ c ≠ ' ' ∧ c ≠ '[' ∧ c ≠ ']' ∧ c ≠ '-' ∧ c ≠ '.') :
    sanitizeStructChars w = w := by
  unfold sanitizeStructChars collapseUnderscores
  rw [replaceDoubleColon_eq_self (fun hm => (hchars ':' hm).1 rfl)]
  rw [replaceChar_eq_self (fun hm => (hchars '+' hm).2.1 rfl)]
  rw [replaceChar_eq_self (fun hm => (hchars '/' hm).2.2.1 rfl)]
  rw [replaceSpaceBacktick_eq_self (fun hm => (hchars ' ' hm).2.2.2.2.2.2.2.1 rfl)]
  rw [replaceChar_eq_self (fun hm => (hchars backtickChar hm).2.2.2.1 rfl)]
  rw [replaceChar_eq_self (fun hm => (hchars '<' hm).2.2.2.2.1 rfl)]
  rw [deleteChar_eq_self (fun hm => (hchars '>' hm).2.2.2.2.2.1 rfl)]
  rw [replaceChar_eq_self (fun hm => (hchars ',' hm).2.2.2.2.2.2.1 rfl)]
  rw [replaceChar_eq_self (fun hm => (hchars ' ' hm).2.2.2.2.2.2.2.1 rfl)]
  rw [replaceChar_eq_self (fun hm => (hchars '[' hm).2.2.2.2.2.2.2.2.1 rfl)]
  rw [deleteChar_eq_self (fun hm => (hchars ']' hm).2.2.2.2.2.2.2.2.2.1 rfl)]
  rw [replaceChar_eq_self (fun hm => (hchars '-' hm).2.2.2.2.2.2.2.2.2.2.1 rfl)]
  rw [replaceChar_eq_self (fun hm => (hchars ':' hm).1 rfl)]
  rw [replaceChar_eq_self (fun hm => (hchars '.' hm).2.2.2.2.2.2.2.2.2.2.2 rfl)]
  rw [collapseAux_eq_self w hna false (by simp)]
  exact stripLeadingUnderscore_eq_self hh

theorem sanitizeStruct_idem_chars (l : List Char) :
    sanitizeStructChars (sanitizeStructChars l) = sanitizeStructChars l := by
  obtain ⟨h1, h2, h3⟩ := sanitizeStructChars_props l
  exact sanitizeStructChars_eq_self h1 h2 h3

/-! ### Normal form of `sanitize_identifier` and idempotence -/

theorem sanitizeIdentChars_props (l : List Char) :
    (∀ c ∈ sanitizeIdentChars l, isWordChar c = true) ∧
    NoAdjU (sanitizeIdentChars l) ∧
    (∀ c, (sanitizeIdentChars l).head? = some c → c.isDigit = false) ∧
    sanitizeIdentChars l ≠ [] := by
  simp only [sanitizeIdentChars]
  split
  · refine ⟨?_, noAdjU_of_no_underscore (by decide), ?_, by decide⟩
    · intro c hc
      have : c ∈ ['f', 'i', 'e', 'l', 'd'] := hc
      simp only [List.mem_cons, List.not_mem_nil, or_false] at this
      rcases this with h | h | h | h | h <;> subst h <;> decide
    · intro c h
      have h2 : 'f' = c := by simpa using h
      subst h2; decide
  · rename_i hne
    refine ⟨?_, prefixDigitUnderscore_noAdj (collapseAux_chain _ false),
      prefixDigitUnderscore_head, hne⟩
    intro c hc
    rcases mem_prefixDigitUnderscore hc with h1 | h2
    · subst h1; decide
    · have h3 := mem_collapseAux _ false h2
      rcases List.mem_map.mp h3 with ⟨d, _, he⟩
      by_cases hd : isWordChar d
      · rw [if_pos hd] at he; exact he ▸ hd
      · rw [if_neg hd] at he; subst he; decide

theorem sanitizeIdentChars_eq_self {w : List Char}
    (hword : ∀ c ∈ w, isWordChar c = true) (hna : NoAdjU w)
    (hhead : ∀ c, w.head? = some c → c.isDigit = false) (hne : w ≠ []) :
    sanitizeIdentChars w = w := by
  simp only [sanitizeIdentChars]
  rw [trimChars_eq_self (fun c hc => wordChar_not_space (hword c hc))]
  rw [dropVerbatimAt_eq_self (fun hh =>
    absurd (hword '@' (List.mem_of_mem_head? (hh ▸ rfl))) (by decide))]
  rw [replaceChar_eq_self (fun hm => absurd (hword '<' hm) (by decide))]
  rw [replaceChar_eq_self (fun hm => absurd (hword '>' hm) (by decide))]
  rw [map_eq_self_of _ w (fun c hc => by rw [if_pos (hword c hc)])]
  rw [show collapseUnderscores w = w from collapseAux_eq_self w hna false (by simp)]
  rw [prefixDigitUnderscore_eq_self hhead]
  rw [if_neg hne]

theorem sanitizeIdent_idem_chars (l : List Char) :
    sanitizeIdentChars (sanitizeIdentChars l) = sanitizeIdentChars l := by
  obtain ⟨h1, h2, h3, h4⟩ := sanitizeIdentChars_props l
  exact sanitizeIdentChars_eq_self h1 h2 h3 h4

theorem sanitizeIdentChars_ne_nil (l : List Char) : sanitizeIdentChars l ≠ [] :=
  (sanitizeIdentChars_props l).2.2.2

theorem sanitize_identifier_ne_empty (s : String) : sanitize_identifier s ≠ "" := by
  intro h
  have h2 := congrArg String.data h
  exact sanitizeIdentChars_ne_nil s.data (by simpa using h2)

/-! ### Dictionary and string helpers -/

theorem dget_values {α : Type} (P : α → Prop) :
    ∀ (m : List (String × α)) (k : String) (v : α),
      (∀ p ∈ m, P p.2) → dget m k = some v → P v := by
  intro m
  induction m with
  | nil => intro k v _ h; simp [dget] at h
  | cons p rest ih =>
    intro k v hall h
    obtain ⟨k0, v0⟩ := p
    rw [dget] at h
    by_cases hk : k0 = k
    · rw [if_pos hk] at h
      have hv : v0 = v := by simpa using h
      exact hv ▸ hall (k0, v0) (List.mem_cons_self _ _)
    · rw [if_neg hk] at h
      exact ih k v (fun q hq => hall q (List.mem_cons_of_mem _ hq)) h

theorem dget_dset_self {α : Type} :
    ∀ (m : List (String × α)) (k : String) (v v0 : α),
      dget m k = some v0 → dget (dset m k v) k = some v := by
  intro m
  induction m with
  | nil => intro k v v0 h; simp [dget] at h
  | cons p rest ih =>
    intro k v v0 h
    obtain ⟨k0, w0⟩ := p
    rw [dget] at h
    rw [dset]
    by_cases hk : k0 = k
    · rw [if_pos hk, dget, if_pos hk]
    · rw [if_neg hk] at h
      rw [if_neg hk, dget, if_neg hk]
      exact ih k v v0 h

theorem string_data_empty {b : String} (h : b.data = []) : b = "" := by
  cases b with
  | mk d =>
    have hd : d = [] := h
    subst hd
    decide

theorem append_ne_empty_left {a : String} (b : String) (ha : a ≠ "") :
    a ++ b ≠ "" := by
  intro h
  have h2 := congrArg String.data h
  rw [String.data_append] at h2
  simp only [List.append_eq_nil] at h2
  exact ha (string_data_empty (by simpa using h2.1))

theorem append_ne_empty_right (a : String) {b : String} (hb : b ≠ "") :
    a ++ b ≠ "" := by
  intro h
  have h2 := congrArg String.data h
  rw [String.data_append] at h2
  simp only [List.append_eq_nil] at h2
  exact hb (string_data_empty (by simpa using h2.2))

theorem mk_data (s : String) : (⟨s.data⟩ : String) = s := by
  cases s
  rfl

theorem afterLastDot_eq_self {l : List Char} (h : '.' ∉ l) : afterLastDot l = l := by
  unfold afterLastDot
  have h2 : l.reverse.takeWhile (fun c => c != '.') = l.reverse := by
    apply List.takeWhile_eq_self_iff.mpr
    intro c hc
    have : c ∈ l := List.mem_reverse.mp hc
    simp only [bne_iff_ne, ne_eq]
    exact fun e => h (e ▸ this)
  rw [h2, List.reverse_reverse]

theorem primitive_map_values : ∀ p ∈ PRIMITIVE_MAP, p.2 ≠ "" := by decide

theorem dget_primitive_ne_empty {k v : String}
    (h : dget PRIMITIVE_MAP k = some v) : v ≠ "" :=
  dget_values (fun v => v ≠ "") PRIMITIVE_MAP k v primitive_map_values h

theorem primitive_getD_ne_empty (k : String) :
    (dget PRIMITIVE_MAP k).getD "int32_t" ≠ "" := by
  cases h : dget PRIMITIVE_MAP k with
  | none => decide
  | some v => simpa using dget_primitive_ne_empty h

/-! ### Totality and non-emptiness of type resolution -/

theorem convert_type_fst_ne_empty (s : String) (amap : AliasMap)
    (types : List TypeInfo) : (convert_type s amap types).1 ≠ "" := by
  simp only [convert_type]
  split
  · -- primitive branch
    rename_i hp
    split
    · exact (by decide : ("Il2CppArray*" : String) ≠ "")
    · exact append_ne_empty_left _ hp
  · -- non-primitive
    split
    · -- resolved
      rename_i referenced _
      split
      · exact (by decide : ("Il2CppArray*" : String) ≠ "")
      · apply append_ne_empty_left
        split
        · exact primitive_getD_ne_empty _
        · split
          · exact append_ne_empty_right _ (by decide)
          · exact append_ne_empty_right _ (by decide)
    · -- unresolved fallback
      split
      · exact (by decide : ("Il2CppArray*" : String) ≠ "")
      · split
        · exact append_ne_empty_left _ (by decide)
        · exact (by decide : ("Il2CppObject*" : String) ≠ "")

/-- C1: Resolution is total — for every declared-type string (including empty,
malformed, or unknown names) and any symbol table, `convert_type` returns a
non-empty native type expression; it is a total function (it never raises),
and unresolvable base names fall back to the generic opaque-object pointer:
whenever the analyzed base name is non-primitive and the symbol table cannot
resolve it (and the declaration is not an array and not the special-cased
`IntPtr`), the result is exactly `("Il2CppObject*", none)`. -/
theorem c1_resolution_total (declaredType : String) (amap : AliasMap)
    (types : List TypeInfo) :
    (convert_type declaredType amap types).1 ≠ "" ∧
    ((dget PRIMITIVE_MAP (analyzeType declaredType).2.2).getD "" = "" →
      resolveTypeInfo amap types (analyzeType declaredType).2.2 = none →
      (analyzeType declaredType).2.1 = 0 →
      (analyzeType declaredType).2.2 ≠ "IntPtr" →
      (analyzeType declaredType).2.2 ≠ "System.IntPtr" →
      convert_type declaredType amap types = ("Il2CppObject*", none)) := by
  refine ⟨convert_type_fst_ne_empty declaredType amap types, ?_⟩
  intro hprim hres harr hip1 hip2
  simp only [convert_type, hprim, hres, harr]
  rw [if_neg (by simp), if_neg (by decide), if_neg ?hni]
  case hni =>
    intro hor
    rcases hor with he | he
    · exact hip1 he
    · exact hip2 he

/-- Witness for C1: the unknown qualified name `Foo.Bar` with an empty symbol
table falls back to the generic opaque-object pointer. -/
theorem c1_resolution_total_witness :
    convert_type "Foo.Bar" [] [] = ("Il2CppObject*", none) :=
  (c1_resolution_total "Foo.Bar" [] []).2 (by decide) (by rfl) (by decide)
    (by decide) (by decide)

/-- C2 counterexample: for the declared type `"S[]"` whose base name `S`
resolves to a value type (a struct) in the symbol table, `convert_type`
returns the generic array expression but does NOT drop the dependency — the
resolved struct is still returned as the dependency output, contradicting the
claim that the dependency is dropped for arrays. -/
theorem c2_array_dependency_counterexample :
    (convert_type "S[]" [("S", some 0)]
      [⟨"S", "S", "S", "struct", none, none, [], []⟩]).1 = "Il2CppArray*" ∧
    (convert_type "S[]" [("S", some 0)]
      [⟨"S", "S", "S", "struct", none, none, [], []⟩]).2 =
      some ⟨"S", "S", "S", "struct", none, none, [], []⟩ := by
  decide

/-- C2 (amended): for every declared-type string from which at least one
trailing `[]` marker is stripped, `convert_type` returns exactly
`"Il2CppArray*"` with no pointer suffix; the dependency output is `none` in
the primitive and unresolved branches, but when the stripped base name
resolves to a value type in the symbol table that type is still returned as
the dependency (it is not dropped). -/
theorem c2_array_override_amended (s : String) (amap : AliasMap)
    (types : List TypeInfo) (h : 0 < (analyzeType s).2.1) :
    (convert_type s amap types).1 = "Il2CppArray*" ∧
    (convert_type s amap types).2 =
      (if (dget PRIMITIVE_MAP (analyzeType s).2.2).getD "" ≠ "" then none
       else
         match resolveTypeInfo amap types (analyzeType s).2.2 with
         | some r => if r.is_value_type then some r else none
         | none => none) := by
  constructor
  · simp only [convert_type]
    split
    all_goals try split
    all_goals rfl
  · simp only [convert_type]
    by_cases hp : (dget PRIMITIVE_MAP (analyzeType s).2.2).getD "" ≠ ""
    · rw [if_pos hp, if_pos hp, if_pos h]
    · rw [if_neg hp, if_neg hp]
      cases hres : resolveTypeInfo amap types (analyzeType s).2.2 with
      | some r =>
        dsimp only
        rw [if_pos h]
      | none =>
        dsimp only
        rw [if_pos h]

/-- Witness for C2: the amended theorem applied at the concrete input
`"S[]"`. -/
theorem c2_array_override_witness :
    0 < (analyzeType "S[]").2.1 ∧
    (convert_type "S[]" [("S", some 0)]
      [⟨"S", "S", "S", "struct", none, none, [], []⟩]).1 = "Il2CppArray*" :=
  ⟨by decide, (c2_array_override_amended "S[]" [("S", some 0)]
    [⟨"S", "S", "S", "struct", none, none, [], []⟩] (by decide)).1⟩

/-! ### Alias-map ambiguity -/

theorem aliasAdd_demotes {m : AliasMap} {a : String} {i j : Nat}
    (hn : normalise_type_name a = a) (hb : dget m a = some (some i))
    (hij : j ≠ i) : dget (aliasAdd m a j) a = some none := by
  simp only [aliasAdd, hn, hb]
  rw [if_neg]
  · exact dget_dset_self m a none (some i) hb
  · intro he
    exact hij (by simpa using he.symm)

/-- C5: Ambiguous short names resolve to the generic fallback — when the alias
map already binds a short name to one type (arena index `i`) and a distinct
type (index `j`) claims the same key, `aliasAdd` demotes the key to the
ambiguous sentinel `none` instead of overwriting the first binding; and a
field whose declared type is that short (unqualified, suffix-free,
non-primitive) name then resolves via `convert_type` to the generic
opaque-object pointer fallback `Il2CppObject*` with no dependency, not to
either candidate type. -/
theorem c5_ambiguous_short_names (m : AliasMap) (types : List TypeInfo)
    (short : String) (i j : Nat)
    (hnorm : normalise_type_name short = short)
    (hnodot : '.' ∉ short.data)
    (hbound : dget m short = some (some i))
    (hij : j ≠ i)
    (hanalyze : analyzeType short = (0, 0, short))
    (hprim : dget PRIMITIVE_MAP short = none) :
    dget (aliasAdd m short j) short = some none ∧
    convert_type short (aliasAdd m short j) types = ("Il2CppObject*", none) := by
  have hdem := aliasAdd_demotes hnorm hbound hij
  refine ⟨hdem, ?_⟩
  have hres : resolveTypeInfo (aliasAdd m short j) types short = none := by
    unfold resolveTypeInfo aliasResolve
    dsimp only
    rw [hnorm, hdem]
    dsimp only
    rw [afterLastDot_eq_self hnodot, mk_data, hdem]
    rfl
  simp only [convert_type, hanalyze, hprim, hres]
  rw [if_neg (by simp), if_neg (by simp), if_neg ?hnip]
  case hnip =>
    intro hor
    rcases hor with he | he
    · rw [he] at hprim; exact absurd hprim (by decide)
    · rw [he] at hprim; exact absurd hprim (by decide)

/-- Witness for C5: two distinct types (indices 0 and 1) both claiming the
short name `"Foo"`. -/
theorem c5_ambiguous_short_names_witness :
    dget (aliasAdd [("Foo", some 0)] "Foo" 1) "Foo" = some none ∧
    convert_type "Foo" (aliasAdd [("Foo", some 0)] "Foo" 1) [] =
      ("Il2CppObject*", none) :=
  c5_ambiguous_short_names [("Foo", some 0)] [] "Foo" 0 1 (by decide) (by decide)
    (by decide) (by decide) (by decide) (by decide)

/-! ### Unsupported header versions -/

theorem dget_none_of_not_mem_keys {α : Type} :
    ∀ (m : List (String × α)) (k : String), k ∉ m.map Prod.fst → dget m k = none := by
  intro m
  induction m with
  | nil => intro k _; rfl
  | cons p rest ih =>
    intro k hk
    obtain ⟨k0, v0⟩ := p
    simp only [List.map_cons, List.mem_cons] at hk
    push_neg at hk
    rw [dget, if_neg (fun e => hk.1 e.symm), ih k hk.2]

theorem generate_header_no_ok {v : String}
    (hget : dget HEADER_VARIANTS v = none) (fuel : Nat) (types : List TypeInfo)
    (amap : AliasMap) (s : String) :
    generate_header fuel types amap v ≠ some (.ok s) := by
  intro h
  unfold generate_header at h
  cases he : emitAll amap types fuel with
  | none => rw [he] at h; exact Option.noConfusion h
  | some order =>
    rw [he] at h
    simp [hget] at h

/-- C6: For every version identifier outside the fixed supported set
{22, 24, 24.1, 24.2, 27, 29}, the run aborts with an error before any output
is produced: `generate_header` raises (never yields header text), and `main`
never reaches the write of the output file, for any input and any fuel. -/
theorem c6_unsupported_version (v : String)
    (hv : v ∉ ["22", "24", "24.1", "24.2", "27", "29"]) :
    (∀ (fuel : Nat) (types : List TypeInfo) (amap : AliasMap) (s : String),
      generate_header fuel types amap v ≠ some (.ok s)) ∧
    (∀ (fuel : Nat) (lines : List String) (s : String),
      run_main lines v fuel ≠ some (.ok s)) := by
  have hkeys : HEADER_VARIANTS.map Prod.fst = ["22", "24", "24.1", "24.2", "27", "29"] := by
    rfl
  have hget : dget HEADER_VARIANTS v = none :=
    dget_none_of_not_mem_keys HEADER_VARIANTS v (by rw [hkeys]; exact hv)
  refine ⟨fun fuel types amap s => generate_header_no_ok hget fuel types amap s, ?_⟩
  intro fuel lines s h
  unfold run_main at h
  cases hp : parse_dump lines with
  | error e => rw [hp] at h; simp at h
  | ok p =>
    rw [hp] at h
    dsimp only at h
    by_cases hz : p.1.length = 0
    · rw [if_pos hz] at h; simp at h
    · rw [if_neg hz] at h
      exact generate_header_no_ok hget fuel p.1 p.2 s h

/-- Witness for C6: the unsupported version identifier `"23"`. -/
theorem c6_unsupported_version_witness :
    ("23" : String) ∉ ["22", "24", "24.1", "24.2", "27", "29"] ∧
    run_main ["struct A"] "23" 5 ≠ some (.ok "x") :=
  ⟨by decide, (c6_unsupported_version "23" (by decide)).2 5 ["struct A"] "x"⟩

/-- C9: The pipeline is deterministic — `run_main` (the composition of
`parse_dump` and `generate_header` that `main` writes to the output file) is
a pure function, so two runs on identical input lines with the same version
identifier (and fuel) yield identical output text. -/
theorem c9_pipeline_deterministic (lines1 lines2 : List String)
    (v1 v2 : String) (fuel1 fuel2 : Nat)
    (hl : lines1 = lines2) (hv : v1 = v2) (hf : fuel1 = fuel2) :
    run_main lines1 v1 fuel1 = run_main lines2 v2 fuel2 := by
  subst hl; subst hv; subst hf; rfl

/-- Witness for C9: two runs on the same one-type dump. -/
theorem c9_pipeline_deterministic_witness :
    run_main ["struct A"] "29" 5 = run_main ["struct A"] "29" 5 :=
  c9_pipeline_deterministic ["struct A"] ["struct A"] "29" "29" 5 5 rfl rfl rfl

/-! ### Every scanned field has a non-empty name -/

theorem except_map_ok {α β : Type} {f : α → β} {e : Except String α} {b : β}
    (h : e.map f = .ok b) : ∃ a, e = .ok a ∧ b = f a := by
  cases e with
  | error msg => simp [Except.map] at h
  | ok a => exact ⟨a, rfl, by simpa [Except.map] using h.symm⟩

theorem appendFieldToType_good {types : List TypeInfo} {idx : Nat} {f : Field}
    (hg : ∀ t ∈ types, ∀ g ∈ t.fields ++ t.static_fields, g.name ≠ "")
    (hf : f.name ≠ "") :
    ∀ t ∈ appendFieldToType types idx f, ∀ g ∈ t.fields ++ t.static_fields,
      g.name ≠ "" := by
  unfold appendFieldToType
  cases ht : types[idx]? with
  | none => exact hg
  | some t0 =>
    have ht0 : t0 ∈ types := List.getElem?_mem ht
    dsimp only
    by_cases hs : f.is_static
    · rw [if_pos hs]
      intro t htm g hgm
      rcases List.mem_or_eq_of_mem_set htm with hmem | heq
      · exact hg t hmem g hgm
      · subst heq
        rcases List.mem_append.mp hgm with h1 | h2
        · exact hg t0 ht0 g (List.mem_append_left _ h1)
        · rcases List.mem_append.mp h2 with h3 | h4
          · exact hg t0 ht0 g (List.mem_append_right _ h3)
          · have : g = f := by simpa using h4
            exact this ▸ hf
    · rw [if_neg hs]
      intro t htm g hgm
      rcases List.mem_or_eq_of_mem_set htm with hmem | heq
      · exact hg t hmem g hgm
      · subst heq
        rcases List.mem_append.mp hgm with h1 | h2
        · rcases List.mem_append.mp h1 with h3 | h4
          · exact hg t0 ht0 g (List.mem_append_left _ h3)
          · have : g = f := by simpa using h4
            exact this ▸ hf
        · exact hg t0 ht0 g (List.mem_append_right _ h2)

theorem processFieldLine_good {st : ParseState} {stripped : List Char}
    (hg : ∀ t ∈ st.type_infos, ∀ g ∈ t.fields ++ t.static_fields, g.name ≠ "") :
    ∀ t ∈ (processFieldLine st stripped).type_infos,
      ∀ g ∈ t.fields ++ t.static_fields, g.name ≠ "" := by
  unfold processFieldLine
  cases hsp : split_type_and_name (⟨stripped⟩ : String) with
  | none => exact hg
  | some p =>
    obtain ⟨tp, np⟩ := p
    cases hcur : st.current_type with
    | none => exact hg
    | some idx =>
      dsimp only
      exact appendFieldToType_good hg (sanitize_identifier_ne_empty np)

theorem processTypeLine_good {st : ParseState} {openB : Nat} {newDepth : Int}
    {kind name : String} {bases : Option String} {st2 : ParseState}
    (h : processTypeLine st openB newDepth kind name bases = .ok st2)
    (hg : ∀ t ∈ st.type_infos, ∀ g ∈ t.fields ++ t.static_fields, g.name ≠ "") :
    ∀ t ∈ st2.type_infos, ∀ g ∈ t.fields ++ t.static_fields, g.name ≠ "" := by
  unfold processTypeLine at h
  obtain ⟨pe, hpe, hst2⟩ := except_map_ok h
  subst hst2
  intro t htm g hgm
  dsimp only at htm
  rcases List.mem_append.mp htm with hmem | hnew
  · exact hg t hmem g hgm
  · simp only [List.mem_singleton] at hnew
    subst hnew
    simp at hgm

theorem processLine_good {st : ParseState} {raw : String} {st2 : ParseState}
    (h : processLine st raw = .ok st2)
    (hg : ∀ t ∈ st.type_infos, ∀ g ∈ t.fields ++ t.static_fields, g.name ≠ "") :
    ∀ t ∈ st2.type_infos, ∀ g ∈ t.fields ++ t.static_fields, g.name ≠ "" := by
  unfold processLine at h
  obtain ⟨stb, hb, hst2⟩ := except_map_ok h
  have h2 : st2.type_infos = stb.type_infos := by rw [hst2]
  rw [h2]
  dsimp only at hb
  cases hns : matchNamespace (trimChars (rstripChars raw.data)) with
  | some nsName =>
    rw [hns] at hb
    dsimp only at hb
    rw [← Except.ok.inj hb]
    exact hg
  | none =>
    rw [hns] at hb
    dsimp only at hb
    cases hty : matchType (trimChars (rstripChars raw.data)) with
    | some trip =>
      rw [hty] at hb
      obtain ⟨kind, name, bases⟩ := trip
      exact processTypeLine_good hb hg
    | none =>
      rw [hty] at hb
      dsimp only at hb
      by_cases hfo : searchFieldOffset (trimChars (rstripChars raw.data))
      · rw [if_pos hfo] at hb
        rw [← Except.ok.inj hb]
        exact hg
      · rw [if_neg hfo] at hb
        by_cases hpf : st.pending_field ∧ st.current_type.isSome ∧
            trimChars (rstripChars raw.data) ≠ [] ∧
            ¬((trimChars (rstripChars raw.data)).head? = some '[')
        · rw [if_pos hpf] at hb
          rw [← Except.ok.inj hb]
          exact processFieldLine_good hg
        · rw [if_neg hpf] at hb
          rw [← Except.ok.inj hb]
          exact hg

theorem parse_fold_good :
    ∀ (lines : List String) (st stf : ParseState),
      List.foldlM processLine st lines = .ok stf →
      (∀ t ∈ st.type_infos, ∀ f ∈ t.fields ++ t.static_fields, f.name ≠ "") →
      ∀ t ∈ stf.type_infos, ∀ f ∈ t.fields ++ t.static_fields, f.name ≠ "" := by
  intro lines
  induction lines with
  | nil =>
    intro st stf h hg
    have : st = stf := by
      have h2 : (pure st : Except String ParseState) = Except.ok stf := by
        simpa [List.foldlM] using h
      exact Except.ok.inj h2
    exact this ▸ hg
  | cons l rest ih =>
    intro st stf h hg
    rw [List.foldlM_cons] at h
    cases hp : processLine st l with
    | error e => rw [hp] at h; simp [Bind.bind, Except.bind] at h
    | ok st1 =>
      rw [hp] at h
      have h3 : List.foldlM processLine st1 rest = .ok stf := by
        simpa [Bind.bind, Except.bind] using h
      exact ih st1 stf h3 (processLine_good hp hg)

/-- C10: `sanitize_identifier` never returns the empty string; whenever
stripping the verbatim-identifier marker and replacing/collapsing characters
leaves nothing, it returns the literal fallback name `"field"` — in
particular on the inputs `"@"` and `""` — and consequently every field
record produced by a successful `parse_dump` scan carries a non-empty
name. -/
theorem c10_sanitized_names_nonempty :
    (∀ s : String, sanitize_identifier s ≠ "") ∧
    (∀ s : String,
      prefixDigitUnderscore (collapseUnderscores
        ((replaceChar '>' '_' (replaceChar '<' '_' (dropVerbatimAt
          (trimChars s.data)))).map
          (fun c => if isWordChar c then c else '_'))) = [] →
      sanitize_identifier s = "field") ∧
    sanitize_identifier "@" = "field" ∧
    sanitize_identifier "" = "field" ∧
    (∀ (lines : List String) (types : List TypeInfo) (am : AliasMap),
      parse_dump lines = .ok (types, am) →
      ∀ t ∈ types, ∀ f ∈ t.fields ++ t.static_fields, f.name ≠ "") := by
  refine ⟨sanitize_identifier_ne_empty, ?_, by rfl, by rfl, ?_⟩
  · intro s hs
    unfold sanitize_identifier sanitizeIdentChars
    rw [if_pos hs]
  intro lines types am h t ht f hf
  unfold parse_dump at h
  obtain ⟨stf, hfold, hpair⟩ := except_map_ok h
  have hty : types = stf.type_infos := congrArg Prod.fst hpair
  exact parse_fold_good lines initParseState stf hfold
    (by intro t htm; simp [initParseState] at htm) t (hty ▸ ht) f hf

/-- Witness for C10: a one-struct dump with one field named `x`. -/
theorem c10_sanitized_names_nonempty_witness :
    parse_dump ["struct A", "\x7b", "[FieldOffset(0x0)]", "int x;", "\x7d"] =
      .ok ([⟨"A", "A", "A", "struct", none, none, [⟨"x", "int", false⟩], []⟩],
        [("A", some 0)]) ∧
    (⟨"x", "int", false⟩ : Field).name ≠ "" := by
  constructor
  · rfl
  · exact c10_sanitized_names_nonempty.2.2.2.2
      ["struct A", "\x7b", "[FieldOffset(0x0)]", "int x;", "\x7d"]
      [⟨"A", "A", "A", "struct", none, none, [⟨"x", "int", false⟩], []⟩]
      [("A", some 0)] (by rfl)
      ⟨"A", "A", "A", "struct", none, none, [⟨"x", "int", false⟩], []⟩ (by decide)
      ⟨"x", "int", false⟩ (by decide)

/-- C8: Sanitization is idempotent — for every string `s`, applying
`sanitize_struct_name` or `sanitize_identifier` to its own output changes
nothing. -/
theorem c8_sanitization_idempotent (s : String) :
    sanitize_struct_name (sanitize_struct_name s) = sanitize_struct_name s ∧
    sanitize_identifier (sanitize_identifier s) = sanitize_identifier s := by
  constructor
  · unfold sanitize_struct_name
    rw [show (⟨sanitizeStructChars s.data⟩ : String).data = sanitizeStructChars s.data from rfl]
    rw [sanitizeStruct_idem_chars]
  · unfold sanitize_identifier
    rw [show (⟨sanitizeIdentChars s.data⟩ : String).data = sanitizeIdentChars s.data from rfl]
    rw [sanitizeIdent_idem_chars]

/-! ### The renderer's emission: invariants of `emit` -/

theorem resolveTypeInfo_mem {amap : AliasMap} {types : List TypeInfo} {n : String}
    {d : TypeInfo} (h : resolveTypeInfo amap types n = some d) : d ∈ types := by
  unfold resolveTypeInfo at h
  cases hr : aliasResolve amap n with
  | none => rw [hr] at h; simp at h
  | some i =>
    rw [hr] at h
    exact List.getElem?_mem (by simpa using h)

theorem convert_type_snd_mem {s : String} {amap : AliasMap} {types : List TypeInfo}
    {d : TypeInfo} (h : (convert_type s amap types).2 = some d) : d ∈ types := by
  simp only [convert_type] at h
  split at h
  · split at h <;> simp at h
  · split at h
    · rename_i referenced hres
      split at h
      all_goals
        dsimp only at h
        split at h
      · have hrd : referenced = d := by simpa using h
        exact hrd ▸ resolveTypeInfo_mem hres
      · simp at h
      · have hrd : referenced = d := by simpa using h
        exact hrd ▸ resolveTypeInfo_mem hres
      · simp at h
    · split at h
      · simp at h
      · split at h <;> simp at h

theorem depsOf_mem {amap : AliasMap} {types : List TypeInfo} {t d : TypeInfo}
    (h : d ∈ depsOf amap types t) : d ∈ types := by
  unfold depsOf at h
  rcases List.mem_append.mp h with h1 | h2
  · unfold parentDep at h1
    cases hp : t.parent with
    | none => rw [hp] at h1; simp at h1
    | some p =>
      rw [hp] at h1
      dsimp only at h1
      by_cases hpe : p = ""
      · rw [if_pos hpe] at h1; simp at h1
      · rw [if_neg hpe] at h1
        cases hr : resolveTypeInfo amap types p with
        | none => rw [hr] at h1; simp at h1
        | some pi =>
          rw [hr] at h1
          have hd : d = pi := by simpa using h1
          exact hd ▸ resolveTypeInfo_mem hr
  · unfold fieldDeps at h2
    rcases List.mem_filterMap.mp h2 with ⟨f, _, hc⟩
    exact convert_type_snd_mem hc

theorem emittedNames_append (l1 l2 : List TypeInfo) :
    emittedNames (l1 ++ l2) = emittedNames l1 ++ emittedNames l2 :=
  List.map_append _ _ _

theorem mem_names_of_prefix {l1 l2 : List TypeInfo} {x : String}
    (h : l1 <+: l2) (hx : x ∈ emittedNames l1) : x ∈ emittedNames l2 := by
  obtain ⟨t, rfl⟩ := h
  rw [emittedNames_append]
  exact List.mem_append_left _ hx

theorem nodup_names_concat {l : List TypeInfo} {a : TypeInfo}
    (hn : (emittedNames l).Nodup) (ha : a.struct_name ∉ emittedNames l) :
    (emittedNames (l ++ [a])).Nodup := by
  rw [emittedNames_append, List.nodup_append]
  refine ⟨hn, List.nodup_singleton _, ?_⟩
  intro x hx hx2
  have hxa : x = a.struct_name := by simpa [emittedNames] using hx2
  exact ha (hxa ▸ hx)

theorem depsBefore_concat {amap : AliasMap} {types : List TypeInfo}
    {l : List TypeInfo} {a : TypeInfo}
    (hd : DepsBefore amap types l)
    (ha : ∀ d ∈ depsOf amap types a, d.is_enum = false →
      d.struct_name ∈ emittedNames l) :
    DepsBefore amap types (l ++ [a]) := by
  intro j hj d hdm henum
  by_cases hjl : j < l.length
  · have hget : (l ++ [a]).get ⟨j, hj⟩ = l.get ⟨j, hjl⟩ := by
      simp [List.get_eq_getElem, List.getElem_append, hjl]
    rw [hget] at hdm
    have hres := hd j hjl d hdm henum
    rw [List.take_append_of_le_length (by omega)]
    exact hres
  · have hjeq : j = l.length := by
      have h2 := hj
      simp only [List.length_append, List.length_singleton] at h2
      omega
    subst hjeq
    have hget : (l ++ [a]).get ⟨l.length, hj⟩ = a := by
      simp [List.get_eq_getElem, List.getElem_append, hjl]
    rw [hget] at hdm
    have htake : (l ++ [a]).take l.length = l := by
      rw [List.take_append_of_le_length (le_refl _), List.take_length]
    rw [htake]
    exact ha d hdm henum

theorem emitF_spec (amap : AliasMap) (types : List TypeInfo) (rank : String → Nat)
    (hrank : RankBounded amap types rank) :
    ∀ (fuel : Nat) (pend : List TypeInfo) (st : List TypeInfo) (info : TypeInfo)
      (st2 : List TypeInfo),
      emitF amap types fuel st info = some st2 →
      info ∈ types →
      (∀ p ∈ pend, p ∈ types ∧ rank info.struct_name < rank p.struct_name ∧
        p.struct_name ∉ emittedNames st) →
      (∀ X ∈ st, X ∈ types ∧ X.is_enum = false) →
      (emittedNames st).Nodup →
      DepsBefore amap types st →
      (st <+: st2) ∧
      (∀ X ∈ st2, X ∈ types ∧ X.is_enum = false) ∧
      (emittedNames st2).Nodup ∧
      DepsBefore amap types st2 ∧
      (∀ p ∈ pend, p.struct_name ∉ emittedNames st2) ∧
      (info.is_enum = false → info.struct_name ∈ emittedNames st2) := by
  intro fuel
  induction fuel with
  | zero =>
    intro pend st info st2 h
    rw [emitF] at h
    exact absurd h (by simp)
  | succ fuel ih =>
    intro pend st info st2 h hin hpend hgood hnodup hdeps
    rw [emitF] at h
    by_cases henum : info.is_enum = true
    · rw [if_pos henum] at h
      have hst : st = st2 := Option.some.inj h
      subst hst
      exact ⟨List.prefix_refl _, hgood, hnodup, hdeps,
        fun p hp => (hpend p hp).2.2, fun hc => absurd henum (by simp [hc])⟩
    · rw [if_neg henum] at h
      by_cases hmem : (emittedNames st).contains info.struct_name = true
      · rw [if_pos hmem] at h
        have hst : st = st2 := Option.some.inj h
        subst hst
        exact ⟨List.prefix_refl _, hgood, hnodup, hdeps,
          fun p hp => (hpend p hp).2.2,
          fun _ => List.mem_of_elem_eq_true hmem⟩
      · rw [if_neg hmem] at h
        have hninfo : info.struct_name ∉ emittedNames st := by
          intro hm
          exact hmem (List.elem_eq_true_of_mem hm)
        have hdepsin : ∀ d ∈ depsOf amap types info, d ∈ types ∧
            rank d.struct_name < rank info.struct_name :=
          fun d hd => ⟨depsOf_mem hd, hrank info hin d hd⟩
        have chain : ∀ (deps : List TypeInfo),
            (∀ d ∈ deps, d ∈ types ∧ rank d.struct_name < rank info.struct_name) →
            ∀ (st0 stf : List TypeInfo),
              List.foldlM (fun acc d => emitF amap types fuel acc d) st0 deps =
                some stf →
              (∀ X ∈ st0, X ∈ types ∧ X.is_enum = false) →
              (emittedNames st0).Nodup →
              DepsBefore amap types st0 →
              (∀ p ∈ info :: pend, p.struct_name ∉ emittedNames st0) →
              (st0 <+: stf) ∧
              (∀ X ∈ stf, X ∈ types ∧ X.is_enum = false) ∧
              (emittedNames stf).Nodup ∧
              DepsBefore amap types stf ∧
              (∀ p ∈ info :: pend, p.struct_name ∉ emittedNames stf) ∧
              (∀ d ∈ deps, d.is_enum = false → d.struct_name ∈ emittedNames stf) := by
          intro deps
          induction deps with
          | nil =>
            intro _ st0 stf hf hg hn hdb hpd
            have hse : st0 = stf := by
              have h2 : (some st0 : Option (List TypeInfo)) = some stf := by
                simpa [List.foldlM] using hf
              exact Option.some.inj h2
            subst hse
            exact ⟨List.prefix_refl _, hg, hn, hdb, hpd, by simp⟩
          | cons d ds ihd =>
            intro hdh st0 stf hf hg hn hdb hpd
            rw [List.foldlM_cons] at hf
            cases hone : emitF amap types fuel st0 d with
            | none => rw [hone] at hf; simp at hf
            | some st1 =>
              rw [hone] at hf
              have hf2 : List.foldlM (fun acc d => emitF amap types fuel acc d)
                  st1 ds = some stf := hf
              have hd := hdh d (List.mem_cons_self _ _)
              have hpendh : ∀ p ∈ info :: pend, p ∈ types ∧
                  rank d.struct_name < rank p.struct_name ∧
                  p.struct_name ∉ emittedNames st0 := by
                intro p hp
                rcases List.mem_cons.mp hp with hp1 | hp2
                · subst hp1
                  exact ⟨hin, hd.2, hpd _ (List.mem_cons_self _ _)⟩
                · obtain ⟨hpt, hpr, _⟩ := hpend p hp2
                  exact ⟨hpt, lt_trans hd.2 hpr, hpd p hp⟩
              obtain ⟨hpre1, hg1, hn1, hdb1, hpd1, hdone1⟩ :=
                ih (info :: pend) st0 d st1 hone hd.1 hpendh hg hn hdb
              obtain ⟨hpre2, hg2, hn2, hdb2, hpd2, hdone2⟩ :=
                ihd (fun x hx => hdh x (List.mem_cons_of_mem _ hx)) st1 stf hf2
                  hg1 hn1 hdb1 hpd1
              refine ⟨hpre1.trans hpre2, hg2, hn2, hdb2, hpd2, ?_⟩
              intro x hx hxe
              rcases List.mem_cons.mp hx with hx1 | hx2
              · subst hx1
                exact mem_names_of_prefix hpre2 (hdone1 hxe)
              · exact hdone2 x hx2 hxe
        cases hfold : (depsOf amap types info).foldlM
            (fun acc d => emitF amap types fuel acc d) st with
        | none => rw [hfold] at h; exact absurd h (by simp)
        | some stf =>
          rw [hfold] at h
          have hst2 : st2 = stf ++ [info] := (Option.some.inj h).symm
          have hpd0 : ∀ p ∈ info :: pend, p.struct_name ∉ emittedNames st := by
            intro p hp
            rcases List.mem_cons.mp hp with hp1 | hp2
            · subst hp1; exact hninfo
            · exact (hpend p hp2).2.2
          obtain ⟨hpre, hg1, hn1, hdb1, hpd1, hdone⟩ :=
            chain (depsOf amap types info) hdepsin st stf hfold hgood hnodup
              hdeps hpd0
          subst hst2
          have hnin_stf : info.struct_name ∉ emittedNames stf :=
            hpd1 info (List.mem_cons_self _ _)
          refine ⟨hpre.trans (List.prefix_append _ _), ?_, ?_, ?_, ?_, ?_⟩
          · intro X hX
            rcases List.mem_append.mp hX with h1 | h2
            · exact hg1 X h1
            · have hXi : X = info := by simpa using h2
              subst hXi
              exact ⟨hin, by simpa using henum⟩
          · exact nodup_names_concat hn1 hnin_stf
          · exact depsBefore_concat hdb1 hdone
          · intro p hp
            have h1 := hpd1 p (List.mem_cons_of_mem _ hp)
            rw [emittedNames_append]
            intro hmm
            rcases List.mem_append.mp hmm with hma | hmb
            · exact h1 hma
            · have hpn : p.struct_name = info.struct_name := by
                simpa [emittedNames] using hmb
              have hlt := (hpend p hp).2.1
              rw [hpn] at hlt
              exact lt_irrefl _ hlt
          · intro _
            rw [emittedNames_append]
            exact List.mem_append_right _ (by simp [emittedNames])

theorem emitFold_spec (amap : AliasMap) (types : List TypeInfo)
    (rank : String → Nat) (hrank : RankBounded amap types rank) (fuel : Nat) :
    ∀ (ts : List TypeInfo), (∀ t ∈ ts, t ∈ types) →
      ∀ (st0 stf : List TypeInfo),
        List.foldlM (fun acc t => emitF amap types fuel acc t) st0 ts = some stf →
        (∀ X ∈ st0, X ∈ types ∧ X.is_enum = false) →
        (emittedNames st0).Nodup →
        DepsBefore amap types st0 →
        (st0 <+: stf) ∧ (∀ X ∈ stf, X ∈ types ∧ X.is_enum = false) ∧
        (emittedNames stf).Nodup ∧ DepsBefore amap types stf := by
  intro ts
  induction ts with
  | nil =>
    intro _ st0 stf hf hg hn hdb
    have hse : st0 = stf := by
      have h2 : (some st0 : Option (List TypeInfo)) = some stf := by
        simpa [List.foldlM] using hf
      exact Option.some.inj h2
    subst hse
    exact ⟨List.prefix_refl _, hg, hn, hdb⟩
  | cons t ts iht =>
    intro hts st0 stf hf hg hn hdb
    rw [List.foldlM_cons] at hf
    cases hone : emitF amap types fuel st0 t with
    | none => rw [hone] at hf; simp at hf
    | some st1 =>
      rw [hone] at hf
      have hf2 : List.foldlM (fun acc t => emitF amap types fuel acc t) st1 ts =
        some stf := hf
      obtain ⟨hpre1, hg1, hn1, hdb1, _, _⟩ :=
        emitF_spec amap types rank hrank fuel [] st0 t st1 hone
          (hts t (List.mem_cons_self _ _)) (by intro p hp; simp at hp) hg hn hdb
      obtain ⟨hpre2, hg2, hn2, hdb2⟩ :=
        iht (fun x hx => hts x (List.mem_cons_of_mem _ hx)) st1 stf hf2 hg1 hn1 hdb1
      exact ⟨hpre1.trans hpre2, hg2, hn2, hdb2⟩

theorem emitAll_spec (amap : AliasMap) (types : List TypeInfo)
    (rank : String → Nat) (hrank : RankBounded amap types rank) (fuel : Nat)
    (order : List TypeInfo) (h : emitAll amap types fuel = some order) :
    (∀ X ∈ order, X ∈ types ∧ X.is_enum = false) ∧
    (emittedNames order).Nodup ∧ DepsBefore amap types order := by
  have hdb0 : DepsBefore amap types [] := by
    intro j hj
    simp at hj
  obtain ⟨_, hg, hn, hdb⟩ :=
    emitFold_spec amap types rank hrank fuel types (fun t ht => ht) [] order h
      (by intro X hX; simp at hX) (by simp [emittedNames]) hdb0
  exact ⟨hg, hn, hdb⟩

/-- C4 counterexample: in the run on `c4Dump`, the class `A_B` and the nested
struct `A.B` share the struct name `A_B`, the class's field forces the struct
to be emitted inside the class's own `emit` call, and both render non-empty
structure groups — so the name `A_B` is the subject of two rendered structure
groups in the final output, refuting at-most-once emission as stated. -/
theorem c4_at_most_once_counterexample :
    parse_dump c4Dump = .ok (c4Types, c4Map) ∧
    emitAll c4Map c4Types 10 = some [c4T2, c4T1] ∧
    emittedNames [c4T2, c4T1] = ["A_B", "A_B"] ∧
    ¬(emittedNames [c4T2, c4T1]).Nodup ∧
    render_type c4T2 c4Map c4Types ≠ "" ∧
    render_type c4T1 c4Map c4Types ≠ "" := by
  refine ⟨by rfl, by rfl, by rfl, by decide, by decide, by decide⟩

/-- C4 (amended): at-most-once emission holds provided the dependency
relation admits a rank function (in particular, no dependency edge connects
two types sharing a struct name): when the emission loop completes, no struct
name occurs twice in the emission order — so no structure name is the subject
of more than one rendered structure group — and a further `emit` call on an
already-emitted type, or on any enum, returns the state unchanged and
contributes nothing. -/
theorem c4_at_most_once_amended (amap : AliasMap) (types : List TypeInfo)
    (rank : String → Nat) (fuel : Nat) (order : List TypeInfo)
    (hrank : RankBounded amap types rank)
    (h : emitAll amap types fuel = some order) :
    (emittedNames order).Nodup ∧
    (∀ (fuel2 : Nat) (info : TypeInfo),
      info.is_enum = true ∨ (emittedNames order).contains info.struct_name = true →
      emitF amap types (fuel2 + 1) order info = some order) := by
  constructor
  · exact (emitAll_spec amap types rank hrank fuel order h).2.1
  · intro fuel2 info hcase
    rw [emitF]
    by_cases he : info.is_enum = true
    · rw [if_pos he]
    · rw [if_neg he]
      rcases hcase with hc | hc
      · exact absurd hc he
      · rw [if_pos hc]

/-- Witness for C4 (amended): the acyclic struct/class instance. -/
theorem c4_at_most_once_witness :
    RankBounded wMapAB wTypesAB wRankAB ∧
    (emittedNames [wStructA, wClassB]).Nodup :=
  ⟨by decide, (c4_at_most_once_amended wMapAB wTypesAB wRankAB 5
    [wStructA, wClassB] (by decide) (by rfl)).1⟩

/-- C3 counterexample: in the run on `c3Dump`, the struct `N_S` (`c3TA`) is a
value-type field dependency of `B` (`c3TB`), both render non-empty structure
groups, yet the successful emission order is `[c3T2, c3TB, c3TA]` — `B`'s
group is rendered strictly before its dependency `N_S`'s group (the earlier
`N_S`-named entry `c3T2` renders the empty string), refuting dependency
ordering as stated. -/
theorem c3_dependency_ordering_counterexample :
    parse_dump c3Dump = .ok (c3Types, c3Map) ∧
    emitAll c3Map c3Types 20 = some [c3T2, c3TB, c3TA] ∧
    c3TA ∈ depsOf c3Map c3Types c3TB ∧
    c3TA ≠ c3T2 ∧
    render_type c3TA c3Map c3Types ≠ "" ∧
    render_type c3TB c3Map c3Types ≠ "" ∧
    render_type c3T2 c3Map c3Types = "" := by
  exact ⟨by rfl, by rfl, by decide, by decide, by decide, by decide, by rfl⟩

/-- C3 (amended): dependency ordering holds provided the dependency relation
admits a rank function (in particular, no struct-name collisions along
dependency chains): for every successful emission order, if the type at
position `iA` is a dependency (resolvable parent or value-type field
dependency) of the type at position `jB`, then `iA < jB`, i.e. the
dependency's structure group appears strictly earlier in the output. -/
theorem c3_dependency_ordering_amended (amap : AliasMap) (types : List TypeInfo)
    (rank : String → Nat) (fuel : Nat) (order : List TypeInfo)
    (hrank : RankBounded amap types rank)
    (h : emitAll amap types fuel = some order)
    (iA jB : Nat) (hiA : iA < order.length) (hjB : jB < order.length)
    (hdep : order.get ⟨iA, hiA⟩ ∈ depsOf amap types (order.get ⟨jB, hjB⟩)) :
    iA < jB := by
  obtain ⟨hg, hn, hdb⟩ := emitAll_spec amap types rank hrank fuel order h
  have hAmem : order.get ⟨iA, hiA⟩ ∈ order := order.get_mem iA hiA
  have henA : (order.get ⟨iA, hiA⟩).is_enum = false := (hg _ hAmem).2
  have hmem := hdb jB hjB _ hdep henA
  rw [show emittedNames (order.take jB) = (emittedNames order).take jB by
    unfold emittedNames; exact List.map_take _ _ _] at hmem
  obtain ⟨k, hk, hkeq⟩ := List.getElem_of_mem hmem
  have hklen : k < (emittedNames order).length := by
    rw [List.length_take] at hk
    have hlen : (emittedNames order).length = order.length := List.length_map _ _
    omega
  have hkjB : k < jB := by
    rw [List.length_take] at hk
    omega
  have hlenNames : (emittedNames order).length = order.length := List.length_map _ _
  have hiA2 : iA < (emittedNames order).length := by omega
  have hiAeq : (emittedNames order).get ⟨iA, hiA2⟩ =
      (order.get ⟨iA, hiA⟩).struct_name := by
    simp [emittedNames, List.get_eq_getElem, List.getElem_map]
  have hkeq2 : (emittedNames order).get ⟨k, hklen⟩ =
      (order.get ⟨iA, hiA⟩).struct_name := by
    rw [List.get_eq_getElem]
    exact (List.getElem_take (emittedNames order)).symm.trans hkeq
  have hfin : (⟨k, hklen⟩ : Fin (emittedNames order).length) = ⟨iA, hiA2⟩ :=
    (List.Nodup.get_inj_iff hn).mp (hkeq2.trans hiAeq.symm)
  have hkiA : k = iA := by
    have h2 := congrArg Fin.val hfin
    simpa using h2
  omega

/-- Witness for C3 (amended): in the acyclic witness instance, the struct
dependency (position 0) is emitted before the class referencing it
(position 1). -/
theorem c3_dependency_ordering_witness :
    RankBounded wMapAB wTypesAB wRankAB ∧ (0 : Nat) < 1 :=
  ⟨by decide, c3_dependency_ordering_amended wMapAB wTypesAB wRankAB 5
    [wStructA, wClassB] (by decide) (by rfl) 0 1 (by decide) (by decide)
    (by decide)⟩

/-! ### Termination and divergence of the emission recursion -/

theorem c7_cycle_stuck : ∀ (fuel : Nat) (st : List TypeInfo),
    "A" ∉ emittedNames st → "B" ∉ emittedNames st →
    emitF c7Map c7Types fuel st c7TA = none ∧
    emitF c7Map c7Types fuel st c7TB = none := by
  intro fuel
  induction fuel with
  | zero => intro st _ _; exact ⟨rfl, rfl⟩
  | succ fuel ih =>
    intro st hA hB
    constructor
    · rw [emitF, if_neg (by decide : ¬(c7TA.is_enum = true)),
        if_neg (show ¬((emittedNames st).contains c7TA.struct_name = true)
          from fun hc => hA (List.mem_of_elem_eq_true hc))]
      rw [show depsOf c7Map c7Types c7TA = [c7TB] from rfl,
        List.foldlM_cons, (ih st hA hB).2]
      rfl
    · rw [emitF, if_neg (by decide : ¬(c7TB.is_enum = true)),
        if_neg (show ¬((emittedNames st).contains c7TB.struct_name = true)
          from fun hc => hB (List.mem_of_elem_eq_true hc))]
      rw [show depsOf c7Map c7Types c7TB = [c7TA] from rfl,
        List.foldlM_cons, (ih st hA hB).1]
      rfl

/-- C7 counterexample: on the two mutually referencing structs of `c7Dump`
(each a value-type field dependency of the other), the parse succeeds, yet
the emission recursion diverges — `emitAll` returns `none` at every fuel, so
the pipeline neither completes nor stops with a reported error, refuting
termination as stated. -/
theorem c7_divergence_counterexample :
    parse_dump c7Dump = .ok (c7Types, c7Map) ∧
    EmissionDiverges c7Map c7Types ∧
    (∀ fuel : Nat, run_main c7Dump "29" fuel = none) := by
  have hstuck : ∀ fuel : Nat, emitAll c7Map c7Types fuel = none := by
    intro fuel
    have h1 := (c7_cycle_stuck fuel [] (by simp [emittedNames])
      (by simp [emittedNames])).1
    show List.foldlM (fun acc t => emitF c7Map c7Types fuel acc t) []
      [c7TA, c7TB] = none
    rw [List.foldlM_cons, h1]
    rfl
  refine ⟨rfl, hstuck, ?_⟩
  intro fuel
  have hred : run_main c7Dump "29" fuel =
      generate_header fuel c7Types c7Map "29" := by rfl
  rw [hred]
  unfold generate_header
  rw [hstuck fuel]

theorem le_foldr_max : ∀ (l : List Nat), ∀ x ∈ l, x ≤ l.foldr max 0 := by
  intro l
  induction l with
  | nil => intro x hx; exact absurd hx (List.not_mem_nil _)
  | cons a l ih =>
    intro x hx
    rw [List.foldr_cons]
    rcases List.mem_cons.mp hx with h | h
    · subst h; exact le_max_left _ _
    · exact le_trans (ih x h) (le_max_right _ _)

theorem emitF_total (amap : AliasMap) (types : List TypeInfo)
    (rank : String → Nat) (hrank : RankBounded amap types rank) :
    ∀ (fuel : Nat) (info : TypeInfo) (st : List TypeInfo),
      info ∈ types → rank info.struct_name < fuel →
      ∃ st2, emitF amap types fuel st info = some st2 := by
  intro fuel
  induction fuel with
  | zero => intro info st _ hr; exact absurd hr (Nat.not_lt_zero _)
  | succ fuel ih =>
    intro info st hin hr
    by_cases he : info.is_enum = true
    · exact ⟨st, by rw [emitF, if_pos he]⟩
    · by_cases hc : (emittedNames st).contains info.struct_name = true
      · exact ⟨st, by rw [emitF, if_neg he, if_pos hc]⟩
      · have hds : ∀ d ∈ depsOf amap types info,
            d ∈ types ∧ rank d.struct_name < fuel := by
          intro d hd
          have h1 := hrank info hin d hd
          exact ⟨depsOf_mem hd, by omega⟩
        have hfold : ∀ (ds : List TypeInfo),
            (∀ d ∈ ds, d ∈ types ∧ rank d.struct_name < fuel) →
            ∀ st0, ∃ stf,
              List.foldlM (fun acc d => emitF amap types fuel acc d) st0 ds =
                some stf := by
          intro ds
          induction ds with
          | nil => intro _ st0; exact ⟨st0, rfl⟩
          | cons d ds ihd =>
            intro hdh st0
            obtain ⟨st1, h1⟩ := ih d st0 (hdh d (List.mem_cons_self _ _)).1
              (hdh d (List.mem_cons_self _ _)).2
            obtain ⟨stf, h2⟩ := ihd
              (fun x hx => hdh x (List.mem_cons_of_mem _ hx)) st1
            refine ⟨stf, ?_⟩
            rw [List.foldlM_cons, h1]
            exact h2
        obtain ⟨stf, hf⟩ := hfold (depsOf amap types info) hds st
        refine ⟨stf ++ [info], ?_⟩
        rw [emitF, if_neg he, if_neg hc, hf]

/-- C7 (amended): the emission recursion terminates whenever the dependency
relation admits a rank function (acyclic parent/value-type-field references):
some fuel — one more than the largest rank among the discovered types —
makes the whole emission loop return an order, so a run with an acyclic
dependency graph always either completes or stops with a reported error. -/
theorem c7_termination_amended (amap : AliasMap) (types : List TypeInfo)
    (rank : String → Nat) (hrank : RankBounded amap types rank) :
    ∃ (fuel : Nat) (order : List TypeInfo),
      emitAll amap types fuel = some order := by
  refine ⟨(types.map (fun t => rank t.struct_name)).foldr max 0 + 1, ?_⟩
  have hbound : ∀ t ∈ types, rank t.struct_name <
      (types.map (fun t => rank t.struct_name)).foldr max 0 + 1 := by
    intro t ht
    have h1 : rank t.struct_name ∈ types.map (fun t => rank t.struct_name) :=
      List.mem_map.mpr ⟨t, ht, rfl⟩
    have h2 := le_foldr_max _ _ h1
    omega
  have htotal : ∀ (ts : List TypeInfo), (∀ t ∈ ts, t ∈ types) →
      ∀ st0, ∃ stf, List.foldlM
        (fun acc t => emitF amap types
          ((types.map (fun t => rank t.struct_name)).foldr max 0 + 1) acc t)
        st0 ts = some stf := by
    intro ts
    induction ts with
    | nil => intro _ st0; exact ⟨st0, rfl⟩
    | cons t ts ih2 =>
      intro hts st0
      obtain ⟨st1, h1⟩ := emitF_total amap types rank hrank _ t st0
        (hts t (List.mem_cons_self _ _)) (hbound t (hts t (List.mem_cons_self _ _)))
      obtain ⟨stf, h2⟩ := ih2 (fun x hx => hts x (List.mem_cons_of_mem _ hx)) st1
      refine ⟨stf, ?_⟩
      rw [List.foldlM_cons, h1]
      exact h2
  obtain ⟨order, ho⟩ := htotal types (fun t ht => ht) []
  exact ⟨order, ho⟩

/-- Witness for C7 (amended): the acyclic struct/class instance admits a rank
function, and emission on it terminates. -/
theorem c7_termination_witness :
    RankBounded wMapAB wTypesAB wRankAB ∧
    (∃ (fuel : Nat) (order : List TypeInfo),
      emitAll wMapAB wTypesAB fuel = some order) :=
  ⟨by decide, c7_termination_amended wMapAB wTypesAB wRankAB (by decide)⟩

end StructGen
